import Mathlib

/-!
Verification development for the relevance-gating and field-extraction core of
the GPT-SUMMARISE farm-log service.  The Python modules `extract.py`,
`gates.py`, `preprocess.py`, `csv_io.py` and the gate portion of
`app_fastapi.py` are shallowly embedded: Python strings become `List Char`,
Python `re` patterns become values of a small regular-expression datatype with
a backtracking matcher that mirrors Python semantics (leftmost search, ordered
alternation, greedy quantifiers, word boundaries, IGNORECASE on ASCII), and
`datetime.now()` becomes an explicit date parameter.
-/

namespace FarmLog

/-- Python strings are modelled as lists of characters. -/
abbrev PyStr := List Char

/-- Characters of a Lean string literal. -/
def str (s : String) : PyStr := s.data

/-- Python whitespace for `\s` and `str.strip()` (ASCII whitespace plus the
common Unicode space characters recognised by Python). -/
def isSpacePy (c : Char) : Bool :=
  c = ' ' || c = '\t' || c = '\n' || c = '\r' || c.toNat = 0x0b || c.toNat = 0x0c ||
  c.toNat = 0x1c || c.toNat = 0x1d || c.toNat = 0x1e || c.toNat = 0x1f ||
  c.toNat = 0x85 || c.toNat = 0xa0 || c.toNat = 0x1680 ||
  (0x2000 ≤ c.toNat && c.toNat ≤ 0x200a) ||
  c.toNat = 0x2028 || c.toNat = 0x2029 || c.toNat = 0x202f ||
  c.toNat = 0x205f || c.toNat = 0x3000

/-- ASCII decimal digit, Python `\d` restricted to ASCII inputs (none of the
embedded texts use non-ASCII digits). -/
def isDigitPy (c : Char) : Bool := '0' ≤ c && c ≤ '9'

/-- Python `\w` word character: ASCII alphanumerics, underscore, and the
Hangul ranges that occur in the embedded lexicons. -/
def isWordPy (c : Char) : Bool :=
  ('a' ≤ c && c ≤ 'z') || ('A' ≤ c && c ≤ 'Z') || isDigitPy c || c = '_' ||
  ('가' ≤ c && c ≤ '힣') || ('ㄱ' ≤ c && c ≤ 'ㆎ') || ('ᄀ' ≤ c && c ≤ 'ᇿ') ||
  ('一' ≤ c && c ≤ '鿿')

/-- ASCII lowering, the part of Python `str.lower()` exercised by the code
(Hangul is unaffected by lowering). -/
def lowerCh (c : Char) : Char :=
  if 'A' ≤ c && c ≤ 'Z' then Char.ofNat (c.toNat + 32) else c

/-- Python `str.lower()`. -/
def pyLower (s : PyStr) : PyStr := s.map lowerCh

/-- Drop from the right while the predicate holds. -/
def rdropWhileB (p : Char → Bool) (s : PyStr) : PyStr :=
  ((s.reverse).dropWhile p).reverse

/-- Python `str.strip()` (no argument): remove leading and trailing
whitespace. -/
def pyStrip (s : PyStr) : PyStr :=
  rdropWhileB isSpacePy (s.dropWhile isSpacePy)

/-- Python `str.rstrip(chars)`. -/
def pyRstrip (chars : PyStr) (s : PyStr) : PyStr :=
  rdropWhileB (fun c => chars.contains c) s

/-- Python `str.lstrip(chars)`. -/
def pyLstrip (chars : PyStr) (s : PyStr) : PyStr :=
  s.dropWhile (fun c => chars.contains c)

/-- Is the first list a leading segment of the second? -/
def leadsOf : PyStr → PyStr → Bool
  | [], _ => true
  | _ :: _, [] => false
  | a :: as, b :: bs => a = b && leadsOf as bs

/-- Python substring test `needle in hay`. -/
def pyIn : PyStr → PyStr → Bool
  | n, [] => n.isEmpty
  | n, c :: rest => leadsOf n (c :: rest) || pyIn n rest

/-- Truthiness of an optional Python string. -/
def truthy (s : Option PyStr) : Bool :=
  match s with
  | none => false
  | some v => !v.isEmpty

/-- Python `a or b` on optional strings: the first truthy operand. -/
def pyOrOpt (a b : Option PyStr) : Option PyStr :=
  if truthy a then a else b

/-- Python `s or None`: `None` for an empty string. -/
def orNone (s : PyStr) : Option PyStr :=
  if s.isEmpty then none else some s

/-- Split a list at every occurrence of a character (Python `str.split(sep)`
for a one-character separator). -/
def splitCh (sep : Char) : PyStr → List PyStr
  | [] => [[]]
  | c :: rest =>
    let r := splitCh sep rest
    if c = sep then [] :: r
    else
      match r with
      | [] => [[c]]
      | h :: t => (c :: h) :: t

/-- Join pieces with a separator (Python `sep.join(xs)`). -/
def joinSep (sep : PyStr) : List PyStr → PyStr
  | [] => []
  | [x] => x
  | x :: rest => x ++ sep ++ joinSep sep rest

/-- Length of the maximal run of characters satisfying `p`. -/
def countWhile (p : Char → Bool) : PyStr → Nat
  | [] => 0
  | c :: rest => if p c then countWhile p rest + 1 else 0

/-! ### A small regular-expression engine

Every Kleene star appearing in the embedded patterns ranges over a single
character class, so the star constructor is restricted to classes; this keeps
the backtracking matcher structurally recursive (no fuel) and hence fully
evaluable by `decide`/`rfl`.  Alternation is ordered (first match wins) and
quantifiers are greedy with backtracking, as in Python `re`. -/

/-- Regular expressions, mirroring the constructs used by the Python code. -/
inductive RE where
  | eps : RE
  | bos : RE
  | eos : RE
  | wb : RE
  | cls (p : Char → Bool) : RE
  | starCls (p : Char → Bool) : RE
  | seq (a b : RE) : RE
  | alt (a b : RE) : RE
  | opt (a : RE) : RE
  | grp (n : Nat) (a : RE) : RE

/-- Capture environment: group number paired with the captured slice; the most
recent capture of a group is listed first. -/
abbrev Caps := List (Nat × PyStr)

/-- Slice `s[i:j]`. -/
def sliceL (s : PyStr) (i j : Nat) : PyStr := (s.drop i).take (j - i)

/-- Is the character at position `i` (if any) a word character? -/
def wordAt (s : PyStr) (i : Nat) : Bool :=
  match s.get? i with
  | some c => isWordPy c
  | none => false

/-- Python `\b`: positions where word-ness changes, with the outside of the
string counting as non-word. -/
def wbAt (s : PyStr) (i : Nat) : Bool :=
  (if i = 0 then false else wordAt s (i - 1)) != wordAt s i

/-- Greedy matching of `p*`: try consuming `n` characters first, then
backtrack down to zero. -/
def tryStar (i : Nat) (cs : Caps) (k : Nat → Caps → Option (Nat × Caps)) :
    Nat → Option (Nat × Caps)
  | 0 => k i cs
  | n + 1 =>
    match k (i + (n + 1)) cs with
    | some r => some r
    | none => tryStar i cs k n

/-- Backtracking matcher in continuation-passing style.  `mrun re s i cs k`
attempts to match `re` in `s` starting at position `i` with captures `cs`,
calling `k` at every candidate end position in Python's preference order. -/
def mrun : RE → PyStr → Nat → Caps → (Nat → Caps → Option (Nat × Caps)) →
    Option (Nat × Caps)
  | .eps, _, i, cs, k => k i cs
  | .bos, _, i, cs, k => if i = 0 then k i cs else none
  | .eos, s, i, cs, k =>
    if i = s.length || (i + 1 = s.length && s.get? i = some '\n') then k i cs
    else none
  | .wb, s, i, cs, k => if wbAt s i then k i cs else none
  | .cls p, s, i, cs, k =>
    match s.get? i with
    | some c => if p c then k (i + 1) cs else none
    | none => none
  | .starCls p, s, i, cs, k => tryStar i cs k (countWhile p (s.drop i))
  | .seq a b, s, i, cs, k => mrun a s i cs (fun j cs2 => mrun b s j cs2 k)
  | .alt a b, s, i, cs, k =>
    match mrun a s i cs k with
    | some r => some r
    | none => mrun b s i cs k
  | .opt a, s, i, cs, k =>
    match mrun a s i cs k with
    | some r => some r
    | none => k i cs
  | .grp n a, s, i, cs, k =>
    mrun a s i cs (fun j cs2 => k j ((n, sliceL s i j) :: cs2))

/-- Run the matcher at a fixed start position, returning the end position and
captures of the first match in Python preference order. -/
def mrunTop (re : RE) (s : PyStr) (i : Nat) : Option (Nat × Caps) :=
  mrun re s i [] (fun j cs => some (j, cs))

/-- Scan start positions `i, i+1, …` (the auxiliary suffix keeps the recursion
structural); mirrors `re.search` continued from position `i`. -/
def researchGo (re : RE) (s : PyStr) : Nat → PyStr → Option (Nat × Nat × Caps)
  | i, [] =>
    (match mrunTop re s i with
     | some (j, cs) => some (i, j, cs)
     | none => none)
  | i, _ :: rest =>
    (match mrunTop re s i with
     | some (j, cs) => some (i, j, cs)
     | none => researchGo re s (i + 1) rest)

/-- Python `re.search`: leftmost match, returning start, end and captures. -/
def research (re : RE) (s : PyStr) : Option (Nat × Nat × Caps) :=
  researchGo re s 0 s

/-- Look up the most recent capture of group `n`. -/
def capLookup (cs : Caps) (n : Nat) : Option PyStr :=
  match cs.find? (fun e => e.1 = n) with
  | some e => some e.2
  | none => none

/-- One replacement pass of `re.sub` (fuelled; the fuel passed by `resub` is
always sufficient because every step advances the scan position). -/
def resubGo (re : RE) (repl full : PyStr) : Nat → Nat → PyStr → PyStr
  | 0, _, suf => suf
  | f + 1, pos, suf =>
    match researchGo re full pos suf with
    | none => suf
    | some (i, j, _) =>
      suf.take (i - pos) ++ repl ++
        (if i < j then resubGo re repl full f j (suf.drop (j - pos))
         else
           match suf.drop (i - pos) with
           | [] => []
           | c :: rest => c :: resubGo re repl full f (i + 1) rest)

/-- Python `re.sub(re, repl, s)` (with a plain replacement string). -/
def resub (re : RE) (repl s : PyStr) : PyStr :=
  resubGo re repl s (s.length + 1) 0 s

/-- Python `re.split(re, s)` for the non-capturing patterns used here. -/
def resplitGo (re : RE) (full : PyStr) : Nat → Nat → PyStr → List PyStr
  | 0, _, suf => [suf]
  | f + 1, pos, suf =>
    match researchGo re full pos suf with
    | none => [suf]
    | some (i, j, _) =>
      if i < j then
        suf.take (i - pos) :: resplitGo re full f j (suf.drop (j - pos))
      else
        match suf.drop (i - pos) with
        | [] => [suf]
        | _ :: _ => [suf]

/-- Python `re.split`. -/
def resplit (re : RE) (s : PyStr) : List PyStr :=
  resplitGo re s (s.length + 1) 0 s

/-! ### Pattern-building helpers -/

/-- Literal character (case-sensitive). -/
def rch (c : Char) : RE := .cls (fun x => x = c)

/-- Literal character under `re.IGNORECASE` (ASCII folding). -/
def rchI (c : Char) : RE := .cls (fun x => lowerCh x = lowerCh c)

/-- Sequence a list of regexes. -/
def rcats : List RE → RE
  | [] => .eps
  | [r] => r
  | r :: rest => .seq r (rcats rest)

/-- Ordered alternation of a list of regexes. -/
def ralts : List RE → RE
  | [] => .eps
  | [r] => r
  | r :: rest => .alt r (ralts rest)

/-- Case-sensitive literal string. -/
def rlit (s : String) : RE := rcats (s.data.map rch)

/-- Case-insensitive literal string. -/
def rlitI (s : String) : RE := rcats (s.data.map rchI)

/-- `\s?` -/
def rwsOpt : RE := .opt (.cls isSpacePy)

/-- `\s*` -/
def rwsStar : RE := .starCls isSpacePy

/-- `\d` -/
def rdig : RE := .cls isDigitPy

/-- `\d+` -/
def rdigPlus : RE := .seq rdig (.starCls isDigitPy)

/-- `\d{1,2}` (greedy). -/
def rdig12 : RE := .alt (.seq rdig rdig) rdig

/-- `\d{4}` -/
def rdig4 : RE := rcats [rdig, rdig, rdig, rdig]

/-- Character set literal. -/
def rset (cs : String) : RE := .cls (fun x => cs.data.contains x)

/-! ## `extract.py`: the single-pass analyser -/

/-- `CROPS` (extract.py): representative crops, first match wins. -/
def CROPS : List PyStr :=
  [str "배추", str "고추", str "사과", str "토마토", str "감자", str "상추", str "딸기",
   str "파프리카", str "오이", str "참외", str "포도", str "복숭아", str "샤인머스켓"]

/-- `OPERATION_KEYWORDS` (extract.py); a Python `set` of distinct literals,
modelled as a duplicate-free list (hit counting is order-independent). -/
def OPERATION_KEYWORDS : List PyStr :=
  [str "파종", str "정식", str "이식", str "정지", str "전정", str "적심", str "유인",
   str "결속", str "적과", str "수확", str "예취", str "선별",
   str "관수", str "灌水", str "점적", str "급수", str "양액", str "시비", str "추비",
   str "밑거름", str "엽면시비", str "방제", str "약제", str "살포",
   str "제초", str "예초", str "멀칭", str "피복", str "경운", str "로터리", str "두둑",
   str "소독", str "예찰", str "검정", str "엽분석", str "토양검정",
   str "환기", str "차광", str "보온", str "난방", str "가온", str "저온",
   str "하우스관리", str "포장관리"]

/-- `[A-Z가-힣]` under `re.IGNORECASE` (ASCII case folding adds `a-z`). -/
def clsUpKorI : RE :=
  .cls (fun c => ('A' ≤ c && c ≤ 'Z') || ('a' ≤ c && c ≤ 'z') ||
                 ('가' ≤ c && c ≤ '힣'))

/-- `[A-Z가-힣]` (case-sensitive, as compiled in `LOC_PATTERNS`). -/
def clsUpKor : RE :=
  .cls (fun c => ('A' ≤ c && c ≤ 'Z') || ('가' ≤ c && c ≤ '힣'))

/-- `AGRI_WHITELIST_PATTERNS` (extract.py), searched with `re.IGNORECASE`. -/
def AGRI_WHITELIST_PATTERNS : List RE :=
  [rlitI "알솎기",
   rcats [rlitI "봉지", rwsOpt, rlitI "씌우기"],
   rlitI "착색",
   rcats [rlitI "당도", rwsOpt, rlitI "측정"],
   rlitI "낙과",
   rlitI "일소",
   rlitI "열과",
   rlitI "보르도액",
   rcats [rlitI "칼슘", rwsOpt, rlitI "엽면시비"],
   rlitI "병반",
   rlitI "분무",
   rlitI "환풍기",
   rcats [rlitI "송이", rwsOpt, rlitI "모양"],
   rlitI "원통형",
   rcats [rlitI "그늘진", rwsOpt, rlitI "과실"],
   rlitI "과원",
   rcats [clsUpKorI, rlitI "블록"],
   rcats [rlitI "하우스", rwsOpt, rdigPlus, rlitI "동"],
   rcats [rlitI "포장", .opt (rset "- "), rdigPlus],
   rcats [rlitI "진딧물", rwsOpt, rlitI "예방"],
   rcats [rlitI "탄저병", rwsOpt, rlitI "예방"],
   rcats [rlitI "예방", rwsOpt, rlitI "방제"]]

/-- `NON_FARMING_PATTERNS` (extract.py), searched with `re.IGNORECASE`. -/
def NON_FARMING_PATTERNS : List RE :=
  [.seq (.grp 1 (.alt (rlitI "레시피") (rlitI "recipe"))) .wb,
   rcats [.wb, rlitI "재료", .wb],
   .seq (.grp 1 (ralts [rlitI "스푼", rlitI "큰술", rlitI "작은술", rlitI "티스푼"])) .wb,
   rcats [.wb, rdigPlus, .opt (.grp 1 (.seq (rch '.') rdigPlus)), rwsOpt,
          .grp 2 (ralts [rlitI "g", rlitI "kg", rlitI "ml", rlitI "l",
                         rlitI "리터", rlitI "밀리리터", rlitI "그램"]), .wb],
   .seq (.grp 1 (ralts [rlitI "볶", rlitI "끓이", rlitI "졸이", rlitI "굽", rlitI "튀기",
                        rlitI "양념하", rcats [rlitI "간", rwsOpt, rlitI "맞"],
                        rcats [rlitI "간을", rwsOpt, rlitI "보"], rlitI "조리하",
                        rlitI "썰", rlitI "다지", rlitI "절이", rlitI "데치", rlitI "삶"]))
        (.starCls isWordPy),
   .grp 1 (ralts [rlitI "간장", rlitI "설탕", rlitI "소금", rlitI "후추", rlitI "다진마늘",
                  rlitI "대파", rlitI "참기름", rlitI "식용유", rlitI "고춧가루",
                  rlitI "된장", rlitI "고추장", rlitI "김치", rlitI "묵은지"]),
   .grp 1 (ralts [rlitI "시리야", rcats [rlitI "유튜브", rwsOpt, rlitI "뮤직"],
                  rlitI "플레이리스트", rlitI "볼륨", rlitI "마이크",
                  rcats [rlitI "녹음", rwsOpt, rlitI "종료"],
                  rcats [rlitI "음악", rwsOpt, rlitI "틀어줘"]])]

/-- `KEY_PATTERNS` (extract.py), compiled without flags. -/
def KEY_PATTERNS : List RE :=
  [rlit "진딧물",
   rlit "총채",
   rlit "역병",
   rlit "탄저",
   .alt (rcats [rlit "요소", .starCls (fun c => c ≠ '\n'), rlit "엽면"]) (rlit "엽면시비"),
   rlit "칼슘"]

/-- `KEY_TO_QUERY` (extract.py): index-keyed query templates. -/
def KEY_TO_QUERY (i : Nat) (crop : PyStr) : List PyStr :=
  match i with
  | 0 => [crop ++ str " 진딧물 방제 요령"]
  | 1 => [crop ++ str " 총채벌레 방제"]
  | 2 => [crop ++ str " 역병 예방"]
  | 3 => [crop ++ str " 탄저병 예방"]
  | 4 => [crop ++ str " 요소 엽면시비 농도"]
  | 5 => [crop ++ str " 칼슘 엽면시비 농도"]
  | _ => []

/-- `LOC_PATTERNS` (extract.py). -/
def LOC_PATTERNS : List RE :=
  [.grp 1 (rcats [rlit "포장", .opt (rset "- "), rdigPlus]),
   .grp 1 (rcats [rlit "하우스", .opt (rset "- "), rdigPlus]),
   .grp 1 (.seq clsUpKor (rlit "블록")),
   .grp 1 (rcats [rlit "밭", rwsOpt, rdigPlus])]

/-- First date pattern: `(\d{4})`, a separator among dot, dash, slash or 년,
`\s?(\d{1,2})`, a separator among dot, dash, slash or 월, `\s?(\d{1,2})`, and
an optional 일. -/
def DATE_PAT1 : RE :=
  rcats [.grp 1 rdig4, rset ".-/년", rwsOpt, .grp 2 rdig12, rset ".-/월", rwsOpt,
         .grp 3 rdig12, .opt (rch '일')]

/-- Second date pattern: `(\d{1,2})`, a separator among dot, dash, slash or
월, `\s?(\d{1,2})`, and a mandatory 일. -/
def DATE_PAT2 : RE :=
  rcats [.grp 1 rdig12, rset ".-/월", rwsOpt, .grp 2 rdig12, rch '일']

/-- The current processing date (`datetime.now()` made explicit). -/
structure PyDate where
  year : Nat
  month : Nat
  day : Nat
deriving Repr, DecidableEq

/-- Decimal digits of a natural number. -/
def natDigits (n : Nat) : PyStr := (toString n).data

/-- Zero-pad to a width, as in `f"{n:04d}"` for non-negative values. -/
def padZ (w : Nat) (n : Nat) : PyStr :=
  let d := natDigits n
  List.replicate (w - d.length) '0' ++ d

/-- `f"{y:04d}-{mo:02d}-{d:02d}"` / `strftime("%Y-%m-%d")`. -/
def fmtDate (y mo d : Nat) : PyStr :=
  padZ 4 y ++ str "-" ++ padZ 2 mo ++ str "-" ++ padZ 2 d

/-- Python `int` on a captured digit string. -/
def toNatPy (s : PyStr) : Option Nat :=
  if s ≠ [] && s.all isDigitPy then
    some (s.foldl (fun acc c => acc * 10 + (c.toNat - '0'.toNat)) 0)
  else none

/-- String comparison used by Python `sorted` (code-point lexicographic). -/
def strLeB : PyStr → PyStr → Bool
  | [], _ => true
  | _ :: _, [] => false
  | a :: as, b :: bs => if a = b then strLeB as bs else decide (a < b)

/-- Insertion into a sorted list. -/
def insSorted (x : PyStr) : List PyStr → List PyStr
  | [] => [x]
  | y :: rest => if strLeB x y then x :: y :: rest else y :: insSorted x rest

/-- Sort a list of strings. -/
def sortStrs (l : List PyStr) : List PyStr := l.foldr insSorted []

/-- Remove adjacent duplicates. -/
def dedupAdj : List PyStr → List PyStr
  | [] => []
  | [x] => [x]
  | x :: y :: rest => if x = y then dedupAdj (y :: rest) else x :: dedupAdj (y :: rest)

/-- Python `sorted(set(xs))` for strings. -/
def sortedSet (l : List PyStr) : List PyStr := dedupAdj (sortStrs l)

/-- The analysis record returned by `analyse` (extract.py). -/
structure AnalysisResult where
  is_farming_related : Bool
  date_hint : Option PyStr
  crop_hint : Option PyStr
  location_hint : Option PyStr
  search_queries : List PyStr
  domain_hits : Nat
  op_hits : Nat
  non_farm_hits : Nat
  agri_hits : Nat
deriving Repr, DecidableEq

/-- The date tier of `analyse` (extract.py lines 137-156): try the two date
patterns in order, breaking on the first structural match (parse failure keeps
the previous value), then the relative-day words, then the default. -/
def dateHintOf (text : PyStr) (default_date : Option PyStr) (now : PyDate) :
    Option PyStr :=
  let dt :=
    match research DATE_PAT1 text with
    | some (_, _, caps) =>
      (match capLookup caps 1, capLookup caps 2, capLookup caps 3 with
       | some g1, some g2, some g3 =>
         (match toNatPy g1, toNatPy g2, toNatPy g3 with
          | some y, some mo, some d => some (fmtDate y mo d)
          | _, _, _ => default_date)
       | _, _, _ => default_date)
    | none =>
      match research DATE_PAT2 text with
      | some (_, _, caps) =>
        (match capLookup caps 1, capLookup caps 2 with
         | some g1, some g2 =>
           (match toNatPy g1, toNatPy g2 with
            | some mo, some d => some (fmtDate now.year mo d)
            | _, _ => default_date)
         | _, _ => default_date)
      | none => default_date
  if !truthy dt then
    if pyIn (str "오늘") text then some (fmtDate now.year now.month now.day)
    else if pyIn (str "어제") text then some (fmtDate now.year now.month now.day)
    else dt
  else dt

/-- `analyse` (extract.py): one pass computing relevance counts and hints.
`domain_keywords` is a Python `set`, modelled as a `Finset`; `datetime.now()`
is the explicit `now` argument. -/
def analyse (stt_text : PyStr) (domain_keywords : Finset PyStr)
    (default_date : Option PyStr) (now : PyDate) : AnalysisResult :=
  let text := pyStrip stt_text
  let low := pyLower text
  let domain_hits :=
    ∑ kw ∈ domain_keywords,
      if (!kw.isEmpty && (pyIn kw text || pyIn (pyLower kw) low)) = true then 1 else 0
  let op_hits := (OPERATION_KEYWORDS.filter (fun op => pyIn op text)).length
  let non_farm_hits :=
    (NON_FARMING_PATTERNS.filter (fun pat => (research pat text).isSome)).length
  let agri_hits :=
    (AGRI_WHITELIST_PATTERNS.filter (fun pat => (research pat text).isSome)).length
  let crop :=
    if pyIn (str "샤인머스켓") text then some (str "포도")
    else CROPS.find? (fun c => pyIn c text)
  let loc :=
    LOC_PATTERNS.findSome? (fun pat =>
      match research pat text with
      | some (_, _, caps) =>
        (match capLookup caps 1 with
         | some g => some (pyStrip (g.filter (fun c => c ≠ ' ')))
         | none => none)
      | none => none)
  let dt := dateHintOf text default_date now
  let queries :=
    match crop with
    | some c =>
      sortedSet ((KEY_PATTERNS.enum.filter
        (fun e => (research e.2 text).isSome)).foldl
          (fun acc e => acc ++ KEY_TO_QUERY e.1 c) [])
    | none => []
  { is_farming_related := domain_hits ≥ 1
    date_hint := dt
    crop_hint := crop
    location_hint := loc
    search_queries := queries
    domain_hits := domain_hits
    op_hits := op_hits
    non_farm_hits := non_farm_hits
    agri_hits := agri_hits }

/-! ## `preprocess.py`: shared cleanup and field normalisers -/

/-- `RE_INTERJECTION_FRONT` (preprocess.py), compiled with `re.IGNORECASE`. -/
def RE_INTERJECTION_FRONT : RE :=
  rcats [.bos, rwsStar,
         .grp 1 (ralts [rlitI "아니요", rlitI "아뇨", rlitI "아니", rlitI "아냐",
                        rlitI "응", rlitI "음", rlitI "어", rlitI "어후", rlitI "예",
                        rlitI "네", rlitI "노", rlitI "NO", rlitI "no", rlitI "뇨"]),
         rwsStar, .starCls (fun c => c = ',' || c = ' '), rwsStar]

/-- `NONEISH_RE` (preprocess.py), compiled with `re.IGNORECASE`. -/
def NONEISH_RE : RE :=
  rcats [.bos, rwsStar,
         .grp 1 (ralts
           [rcats [rlitI "없", .opt (.grp 2 (ralts [rlitI "음", rlitI "어요", rlitI "다"]))],
            rlitI "미사용",
            rcats [rlitI "사용", rwsStar, rlitI "안",
                   .opt (.grp 3 (ralts [rlitI "함", rlitI "했", rlitI "합니다"]))],
            rcats [rlitI "안", rwsStar,
                   .grp 4 (ralts [rlitI "쳤", rlitI "치", rlitI "줬", rlitI "주",
                                  rlitI "했", rlitI "함", rlitI "씀",
                                  rcats [rlitI "썼",
                                         .opt (.grp 5 (ralts [rlitI "어", rlitI "다",
                                                              rlitI "어요"]))]])],
            rlitI "no",
            rlitI "무"]),
         rwsStar, .starCls (fun c => c = ',' || c = '.'), rwsStar, .eos]

/-- The comma pattern of `collapse_commas_spaces`: `\s*,\s*`. -/
def SUB_COMMA_PAT : RE := rcats [rwsStar, rch ',', rwsStar]

/-- The whitespace-run pattern of `collapse_commas_spaces`: two whitespace
characters followed by any more. -/
def SUB_MULTIWS_PAT : RE := rcats [.cls isSpacePy, .cls isSpacePy, rwsStar]

/-- `collapse_commas_spaces` (preprocess.py). -/
def collapse_commas_spaces (s : PyStr) : PyStr :=
  pyStrip (resub SUB_MULTIWS_PAT (str " ") (resub SUB_COMMA_PAT (str " ") s))

/-- `drop_front_interjection` (preprocess.py). -/
def drop_front_interjection (s : PyStr) : PyStr :=
  resub RE_INTERJECTION_FRONT [] s

/-- The trailing spoken-suffix pattern of `strip_tail_speech`. -/
def TAIL_SPEECH_PAT : RE :=
  .seq (.grp 1 (ralts [rlit "했어", rlit "했어요", rlit "했습니다", rlit "하였음",
                       rlit "하였어요", rlit "하였고", rlit "야", rlit "이야",
                       rlit "에요", rlit "예요", rlit "입니다", rlit "이요", rlit "요"]))
       .eos

/-- `strip_tail_speech` (preprocess.py). -/
def strip_tail_speech (s : PyStr) : PyStr :=
  if s.isEmpty then s
  else pyStrip (resub TAIL_SPEECH_PAT [] (pyRstrip (str ",.，。 ") (pyStrip s)))

/-- `OP_CANON` (preprocess.py): insertion-ordered canonical operation table. -/
def OP_CANON : List (PyStr × List PyStr) :=
  [(str "파종·정식", [str "파종", str "정식", str "이식"]),
   (str "재배관리",
    [str "재배관리", str "생육관리", str "하우스관리", str "관수", str "灌水",
     str "점적", str "양액", str "시비", str "추비", str "환기", str "차광",
     str "봉지", str "알솎기", str "착색", str "전정", str "가지치기", str "제초",
     str "예초", str "잡초", str "풀", str "제초제"]),
   (str "병해충관리",
    [str "병해", str "해충", str "방제", str "약제", str "살포", str "진딧물",
     str "탄저", str "역병", str "보르도"]),
   (str "수확", [str "수확", str "예취", str "따기", str "거둬", str "거둠"]),
   (str "출하·유통", [str "출하", str "유통", str "선별", str "포장", str "상차"])]

/-- `KNOWN_CROPS` (preprocess.py). -/
def KNOWN_CROPS : List PyStr :=
  [str "배추", str "고추", str "사과", str "토마토", str "감자", str "상추",
   str "딸기", str "파프리카", str "오이", str "참외", str "포도", str "복숭아",
   str "샤인머스켓", str "사과나무", str "포도나무", str "감귤", str "귤"]

/-- The ordered region-name alternatives of `KOR_LOC_RE`. -/
def REGIONS : List RE :=
  [rlit "서울", rlit "부산", rlit "대구", rlit "인천",
   rlit "광주", rlit "대전", rlit "울산", rlit "세종",
   rlit "제주", rlit "제주도", rlit "강원도", rlit "강원",
   rlit "경기", rlit "경기도", rlit "충청남도", rlit "충남",
   rlit "충청북도", rlit "충북", rlit "전라남도", rlit "전남",
   rlit "전라북도", rlit "전북", rlit "경상남도", rlit "경남",
   rlit "경상북도", rlit "경북"]

/-- The tail of `KOR_LOC_RE`: `\s*` then a run of Hangul, Latin letters or
digits. -/
def KORLOC_TAIL : RE :=
  .seq rwsStar
    (.starCls (fun c => ('가' ≤ c && c ≤ '힣') || ('A' ≤ c && c ≤ 'Z') ||
                        ('a' ≤ c && c ≤ 'z') || isDigitPy c))

/-- `KOR_LOC_RE` (preprocess.py): a region name followed by `\s*` and a run of
Hangul, Latin letters or digits. -/
def KOR_LOC_RE : RE := .seq (.grp 1 (ralts REGIONS)) KORLOC_TAIL

/-- `NONFARM_MEMO_RE_LIST` (preprocess.py); patterns 1 and 4 carry `re.I`. -/
def NONFARM_MEMO_RE_LIST : List RE :=
  [.seq (.grp 1 (.alt (rlitI "레시피") (rlitI "recipe"))) .wb,
   rcats [.wb, rlit "재료", .wb],
   rcats [.wb, rdigPlus, .opt (.grp 1 (.seq (rch '.') rdigPlus)), rwsOpt,
          .grp 2 (ralts [rlit "g", rlit "kg", rlit "ml", rlit "l",
                         rlit "리터", rlit "밀리리터", rlit "그램"]), .wb],
   .grp 1 (ralts [rlitI "여행", rlitI "항공권", rlitI "비행기", rlitI "렌터카",
                  rlitI "체크인", rlitI "호텔", rlitI "숙소", rlitI "예약", rlitI "제주"]),
   .grp 1 (ralts [rlit "영화", rlit "드라마", rlit "넷플릭스", rlit "콘서트",
                  rlit "유튜브", rlit "플레이리스트", rlit "볼륨",
                  rcats [rlit "음악", rwsOpt, rlit "틀어줘"]]),
   .grp 1 (ralts [rlit "병원", rlit "약국", rlit "파스", rlit "어깨", rlit "허리",
                  rlit "두통", rlit "감기", rlit "치과", rlit "건강검진"]),
   .grp 1 (ralts [rlit "핸드폰", rlit "스마트폰", rlit "카톡", rlit "카카오톡",
                  rlit "택배", rlit "영수증", rlit "세탁소", rlit "회의",
                  rlit "출근", rlit "야근", rlit "카페", rlit "커피"]),
   .grp 1 (ralts [rlit "게임", rlit "스팀", rlit "롤", rlit "배그"])]

/-- `is_nonfarm_memo` (preprocess.py). -/
def is_nonfarm_memo (memo : Option PyStr) : Bool :=
  match memo with
  | none => false
  | some m =>
    if m.isEmpty then false
    else NONFARM_MEMO_RE_LIST.any (fun r => (research r (pyStrip m)).isSome)

/-- Replace every non-overlapping occurrence of the two-character pattern
`a b` by `r`, scanning left to right (Python `str.replace` for a two-character
needle). -/
def repl2 (a b : Char) (r : PyStr) : PyStr → PyStr
  | [] => []
  | [c] => [c]
  | x :: y :: rest =>
    if x = a && y = b then r ++ repl2 a b r rest
    else x :: repl2 a b r (y :: rest)

/-- The ordered alternatives of the structured-location pattern of
`normalize_site`. -/
def SITE_ALTS : List RE :=
  [rcats [rlit "포장", .opt (rset "- "), rdigPlus],
   rcats [rlit "하우스", .opt (rset "- "), rdigPlus],
   .seq clsUpKor (rlit "블록"),
   rcats [rlit "밭", rwsOpt, rdigPlus],
   rlit "과원"]

/-- The structured-location pattern of `normalize_site` (case-sensitive). -/
def SITE_PAT : RE := .grp 1 (ralts SITE_ALTS)

/-- `normalize_site` (preprocess.py). -/
def normalize_site (s : Option PyStr) : Option PyStr :=
  match s with
  | none => none
  | some t =>
    if t.isEmpty then none
    else
      let u := strip_tail_speech (collapse_commas_spaces (drop_front_interjection t))
      match research SITE_PAT u with
      | some (_, _, caps) =>
        (match capLookup caps 1 with
         | some g => some (g.filter (fun c => c ≠ ' '))
         | none => none)
      | none =>
        match research KOR_LOC_RE u with
        | some (i, j, _) => some (pyStrip (repl2 ' ' ' ' (str " ") (sliceL u i j)))
        | none => orNone u

/-- The trailing `(나무)(야|지|인데|에요|예요)?$` pattern of `normalize_crop`. -/
def CROP_TREE_PAT : RE :=
  rcats [.grp 1 (rlit "나무"),
         .opt (.grp 2 (ralts [rlit "야", rlit "지", rlit "인데", rlit "에요",
                              rlit "예요"])),
         .eos]

/-- Python `str.split()` with no argument: split on whitespace runs. -/
def pySplitWsGo (acc : PyStr) : PyStr → List PyStr
  | [] => if acc.isEmpty then [] else [acc.reverse]
  | c :: rest =>
    if isSpacePy c then
      if acc.isEmpty then pySplitWsGo [] rest
      else acc.reverse :: pySplitWsGo [] rest
    else pySplitWsGo (c :: acc) rest

/-- Python `str.split()`. -/
def pySplitWs (s : PyStr) : List PyStr := pySplitWsGo [] s

/-- `normalize_crop` (preprocess.py). -/
def normalize_crop (s : Option PyStr) : Option PyStr :=
  match s with
  | none => none
  | some t =>
    if t.isEmpty then none
    else
      let u := strip_tail_speech (collapse_commas_spaces (drop_front_interjection t))
      let u2 := pyStrip (resub CROP_TREE_PAT [] u)
      if pyIn (str "샤인머스켓") u2 then some (str "포도")
      else if pyIn (str "사과나무") u2 then some (str "사과")
      else if pyIn (str "포도나무") u2 then some (str "포도")
      else if pyIn (str "귤") u2 && !pyIn (str "감귤") u2 then some (str "감귤")
      else
        match KNOWN_CROPS.find? (fun c => pyIn c u2) with
        | some c =>
          some (if c = str "샤인머스켓" then str "포도"
                else if c = str "사과나무" then str "사과"
                else if c = str "포도나무" then str "포도"
                else c)
        | none =>
          match pySplitWs u2 with
          | tok :: _ => some tok
          | [] => some u2

/-- `_canon_op_free` (preprocess.py). -/
def canon_op_free (answer : PyStr) : Option PyStr :=
  let a := answer.filter (fun c => c ≠ ' ')
  match OP_CANON.find? (fun e => e.1.filter (fun c => c ≠ ' ') = a) with
  | some e => some e.1
  | none =>
    match OP_CANON.find? (fun e => e.2.any (fun w => pyIn w answer)) with
    | some e => some e.1
    | none => orNone (pyStrip answer)

/-- `normalize_operation` (preprocess.py). -/
def normalize_operation (s : Option PyStr) : Option PyStr :=
  match s with
  | none => none
  | some t =>
    if t.isEmpty then none
    else
      let u := strip_tail_speech (collapse_commas_spaces (drop_front_interjection t))
      let u2 := pyStrip (repl2 '작' '업' [] u)
      if [str "수확", str "따기", str "거둬", str "거둠", str "수확함",
          str "수확했"].any (fun k => pyIn k u2) then some (str "수확")
      else if [str "가지치기", str "전정"].any (fun k => pyIn k u2) then
        some (str "재배관리")
      else if [str "잡초", str "제초", str "예초", str "풀 뽑",
               str "풀뽑"].any (fun k => pyIn k u2) then some (str "재배관리")
      else if [str "방제", str "약제", str "살포", str "진딧물", str "탄저",
               str "역병", str "보르도"].any (fun k => pyIn k u2) then
        some (str "병해충관리")
      else if [str "파종", str "정식", str "이식"].any (fun k => pyIn k u2) then
        some (str "파종·정식")
      else if [str "봉지", str "알솎기", str "착색", str "관수", str "灌水",
               str "점적", str "양액", str "시비", str "추비", str "환기",
               str "차광"].any (fun k => pyIn k u2) then some (str "재배관리")
      else canon_op_free u2

/-- The temporal context-word pattern of `normalize_agri_input`. -/
def CTX_PAT : RE :=
  rcats [.wb,
         .grp 1 (ralts [rlit "이번엔", rlit "이번에는", rlit "오늘은", rlit "지금은",
                        rlit "금번엔", rlit "이번", rlit "금번"]),
         .wb]

/-- The general negation-verb pattern of `normalize_agri_input`. -/
def NEG_PAT : RE :=
  rcats [rlit "안", rwsStar,
         .grp 1 (ralts [rlit "줬", rlit "주", rlit "쳤", rlit "치", rlit "했",
                        rlit "함", rlit "씀", rlit "썼"]),
         .opt (.grp 2 (ralts [rlit "었", rlit "었어", rlit "었어요", rlit "네",
                              rlit "다", rlit "요"]))]

/-- The stale-reference pattern of `normalize_agri_input`: an action performed
on a previous occasion. -/
def STALE_PAT : RE :=
  .grp 1 (ralts
    [rcats [rlit "전", rwsStar, .grp 2 (.alt (rlit "에") (rlit "엔")), rwsStar,
            .grp 3 (ralts [rlit "줬", rlit "주었", rlit "쳤", rlit "치었"])],
     rcats [rlit "지난번", .opt (.grp 4 (rlit "에")), rwsStar,
            .grp 5 (.alt (rlit "줬") (rlit "쳤"))],
     rcats [rlit "예전에", rwsStar, .grp 6 (.alt (rlit "줬") (rlit "쳤"))]])

/-- The negation / none-ish / stale-reference decision of
`normalize_agri_input` on the fully cleaned string. -/
def nai_check (u2 : PyStr) : Option PyStr :=
  if (research NONEISH_RE u2).isSome then none
  else if (research NEG_PAT u2).isSome then none
  else if (research STALE_PAT u2).isSome then none
  else orNone u2

/-- The body of `normalize_agri_input` after the front-interjection drop:
collapse, tail-strip, temporal context-word removal, then the negation and
stale-reference checks. -/
def nai_core (v : PyStr) : Option PyStr :=
  nai_check (pyStrip (resub CTX_PAT []
    (strip_tail_speech (collapse_commas_spaces v))))

/-- `normalize_agri_input` (preprocess.py): shared pesticide/fertiliser
normalisation with negation and stale-reference scoping. -/
def normalize_agri_input (s : Option PyStr) : Option PyStr :=
  match s with
  | none => none
  | some t =>
    if t.isEmpty then none
    else nai_core (drop_front_interjection t)

/-- The Brix pattern of `summarize_memo`, compiled with `re.I`. -/
def BRIX_PAT : RE :=
  rcats [.grp 1 (.seq rdigPlus (.opt (.grp 2 (.seq (rch '.') rdigPlus)))),
         rwsStar,
         .grp 3 (ralts [rlitI "brix", rlitI "브릭스", rlitI "bx"])]

/-- The weeding keyword pattern of `summarize_memo`. -/
def WEED_PAT : RE :=
  .grp 1 (ralts [rlit "잡초", rlit "제초", rlit "예초", rlit "풀"])

/-- The pest keyword pattern of `summarize_memo`. -/
def PEST_PAT : RE :=
  .grp 1 (ralts [rlit "방제", rlit "약제", rlit "살포", rlit "진딧물", rlit "탄저",
                 rlit "역병", rlit "보르도"])

/-- The weather pattern of `summarize_memo`. -/
def WEATHER_PAT : RE :=
  .grp 1 (ralts [rlit "맑", rcats [rlit "비", rwsOpt, rlit "옴"],
                 rcats [rlit "비", rwsOpt, rlit "와"], rlit "더움", rlit "추움",
                 rlit "바람", rlit "날씨"])

/-- The sentence-splitting pattern of `summarize_memo`: `[.!?]` then `\s*`. -/
def SENT_SPLIT_PAT : RE := .seq (rset ".!?") rwsStar

/-- `summarize_memo` (preprocess.py). -/
def summarize_memo (memo crop op : Option PyStr) : Option PyStr :=
  match memo with
  | none => none
  | some m =>
    if m.isEmpty then none
    else if is_nonfarm_memo (some m) then none
    else
      let t := strip_tail_speech (collapse_commas_spaces (drop_front_interjection m))
      let tokens : List PyStr :=
        match crop with
        | some c => if c.isEmpty then [] else [c]
        | none => []
      let tokens := tokens ++
        (if (research (rlit "수확") t).isSome then [str "수확"] else [])
      let tokens := tokens ++
        (if (research WEED_PAT t).isSome &&
            !tokens.contains (str "재배관리") && op ≠ some (str "재배관리") then
           [str "재배관리"] else [])
      let tokens := tokens ++
        (if (research PEST_PAT t).isSome then [str "병해충"] else [])
      let tokens := tokens ++
        (match research BRIX_PAT t with
         | some (_, _, caps) =>
           (match capLookup caps 1 with
            | some g => [str "당도 " ++ g ++ str " Brix"]
            | none => [])
         | none => if pyIn (str "당도") t then [str "당도 높음"] else [])
      let tokens := tokens ++
        (if (research WEATHER_PAT t).isSome then
           (if pyIn (str "맑") t then [str "날씨 좋음"] else [str "날씨"])
         else [])
      let tokens := tokens ++
        (match op with
         | some o => if !o.isEmpty && !tokens.contains o then [o] else []
         | none => [])
      if tokens.isEmpty then
        some (pyStrip (joinSep (str " ") ((resplit SENT_SPLIT_PAT t).take 2)))
      else some (joinSep (str " · ") tokens)

/-! ## `csv_io.py` and `gates.py`: field maps, the CSV record parser and the
two relevance gates.  File-system access, encoding detection and the HTTP
layer are out of scope; the parser is embedded from the point where the file's
decoded text is in hand.  The external `semantic_gate` collaborator appears as
an explicit boolean argument (its failure is already folded to `False` by the
callers' `try`/`except`). -/

/-- The six canonical QA fields. -/
inductive Field where
  | site | crop | operation | pesticide | fertiliser | memo
deriving Repr, DecidableEq

/-- `QAFieldMap`: canonical field names mapped to optional values.  A missing
key and an explicit `None` are identified (the None-vs-absent normalisation). -/
structure QAFieldMap where
  site : Option PyStr := none
  crop : Option PyStr := none
  operation : Option PyStr := none
  pesticide : Option PyStr := none
  fertiliser : Option PyStr := none
  memo : Option PyStr := none
deriving Repr, DecidableEq

/-- Read a field. -/
def QAFieldMap.get (qa : QAFieldMap) : Field → Option PyStr
  | .site => qa.site
  | .crop => qa.crop
  | .operation => qa.operation
  | .pesticide => qa.pesticide
  | .fertiliser => qa.fertiliser
  | .memo => qa.memo

/-- Update a field. -/
def QAFieldMap.set (qa : QAFieldMap) : Field → Option PyStr → QAFieldMap
  | .site, v => { qa with site := v }
  | .crop, v => { qa with crop := v }
  | .operation, v => { qa with operation := v }
  | .pesticide, v => { qa with pesticide := v }
  | .fertiliser, v => { qa with fertiliser := v }
  | .memo, v => { qa with memo := v }

/-- The empty field map. -/
def emptyQA : QAFieldMap := {}

/-- `FIELD_ALIASES` (csv_io.py), in source order. -/
def FIELD_ALIASES : List (Field × List PyStr) :=
  [(.site, [str "재배지", str "포장", str "위치", str "장소"]),
   (.crop, [str "작물", str "품목", str "품종"]),
   (.operation, [str "작업", str "카테고리", str "작업구분"]),
   (.pesticide, [str "농약", str "약제"]),
   (.fertiliser, [str "비료", str "시비", str "자재"]),
   (.memo, [str "메모", str "비고", str "기타"])]

/-- English synonym table of `_canon_field` (csv_io.py). -/
def ENG_FIELD_WORDS : List (Field × List PyStr) :=
  [(.site, [str "site", str "location", str "field", str "plot"]),
   (.crop, [str "crop", str "item", str "variety"]),
   (.operation, [str "operation", str "category", str "work"]),
   (.pesticide, [str "pesticide", str "agrochemical", str "chem"]),
   (.fertiliser, [str "fertiliser", str "fertilizer", str "nutrient"]),
   (.memo, [str "memo", str "note", str "remarks"])]

/-- `_canon_field` (csv_io.py). -/
def canon_field (label : PyStr) : Option Field :=
  let lab := pyStrip label
  match FIELD_ALIASES.find? (fun e => e.2.any (fun a => a = lab)) with
  | some e => some e.1
  | none =>
    let low := pyLower lab
    match ENG_FIELD_WORDS.find? (fun e => e.2.any (fun a => a = low)) with
    | some e => some e.1
    | none => none

/-- Union of the Korean alias labels, as used by the header detection of
`read_qa_csv`. -/
def ALL_ALIAS_LABELS : List PyStr := FIELD_ALIASES.foldr (fun e acc => e.2 ++ acc) []

/-- The question/answer body parser `_parse_rows_qna` of `read_qa_csv` with
`q_idx = 0`, `a_start_idx = 1`. -/
def parse_rows_qna (rows : List PyStr) (qa : QAFieldMap) : QAFieldMap :=
  rows.foldl
    (fun acc ln =>
      let cols := (splitCh ',' ln).map pyStrip
      match cols with
      | [] => acc
      | label :: tail =>
        let value := if tail ≠ [] then pyStrip (joinSep (str ",") tail) else []
        match canon_field label with
        | some fld => acc.set fld (orNone value)
        | none => acc)
    qa

/-- The final normalisation pass of `read_qa_csv`: a value whose strip is
empty becomes `None`. -/
def blankToNone (v : Option PyStr) : Option PyStr :=
  match v with
  | some w => if (pyStrip w).isEmpty then none else some w
  | none => none

/-- Last index of each header cell (Python `{h: i for i, h in enumerate(...)}`,
where later duplicates win). -/
def lastIdxOf (header : List PyStr) (h : PyStr) : Option Nat :=
  (header.enum.filter (fun e => e.2 = h)).getLast? |>.map (fun e => e.1)

/-- The alias-header branch of `read_qa_csv` (csv_io.py lines 65-72): a single
data row read under a Korean alias header, `lab2idx` realised by `lastIdxOf`
and the `idx < len(vals)` guard by `List.get?`. -/
def parse_alias_row (header vals : List PyStr) : QAFieldMap :=
  FIELD_ALIASES.foldl
    (fun acc e =>
      e.2.foldl
        (fun acc2 al =>
          match lastIdxOf header al with
          | some idx =>
            (match vals.get? idx with
             | some v => acc2.set e.1 (orNone v)
             | none => acc2)
          | none => acc2)
        acc)
    emptyQA

/-- The `label,value`-per-line fallback branch of `read_qa_csv` (csv_io.py
lines 73-80): `ln.split(",", 1)` realised by `takeWhile`/`dropWhile`. -/
def parse_label_lines (lines : List PyStr) : QAFieldMap :=
  lines.foldl
    (fun acc ln =>
      if ln.contains ',' then
        match canon_field (ln.takeWhile (fun c => c ≠ ',')) with
        | some fld =>
          acc.set fld (orNone (pyStrip ((ln.dropWhile (fun c => c ≠ ',')).drop 1)))
        | none => acc
      else acc)
    emptyQA

/-- Branch selection of `read_qa_csv` once the non-blank lines are in hand
(csv_io.py lines 44-80). -/
def parse_lines : List PyStr → QAFieldMap
  | [] => emptyQA
  | line0 :: restLines =>
    let header := (splitCh ',' line0).map pyStrip
    let header_l := header.map pyLower
    if (header_l.contains (str "question") && header_l.contains (str "answer")) ||
       (header_l.contains (str "field") && header_l.contains (str "value")) then
      parse_rows_qna restLines emptyQA
    else if header.any (fun h => ALL_ALIAS_LABELS.any (fun a => a = h)) then
      parse_alias_row header
        (match restLines with
         | line1 :: _ => (splitCh ',' line1).map pyStrip
         | [] => [])
    else
      parse_label_lines (line0 :: restLines)

/-- Universal-newline line termination of Python's text-mode iteration
(csv_io.py line 42, `open(..., newline="")`): a lone `'\r'`, a lone `'\n'`
and the pair `"\r\n"` each terminate a line.  `normNL` canonicalises the
three terminators to `'\n'` so that the line decomposition is a plain
`splitCh '\n'`. -/
def normNL : PyStr → PyStr
  | [] => []
  | c :: rest =>
    if c = '\r' then
      match rest with
      | [] => ['\n']
      | '\n' :: rest2 => '\n' :: normNL rest2
      | d :: rest2 => '\n' :: normNL (d :: rest2)
    else c :: normNL rest

/-- Split text into lines at the universal-newline terminators, terminators
dropped (each Python line is immediately `rstrip("\r\n")`-ed and blank lines
are filtered out, so dropping the terminators here is equivalent). -/
def splitLinesPy (s : PyStr) : List PyStr := splitCh '\n' (normNL s)

/-- `read_qa_csv` (csv_io.py) from the point where the file's decoded text is
available; path containment and existence checks are external. -/
def read_qa_csv_text (content : PyStr) : QAFieldMap :=
  let lines := ((splitLinesPy content).map
    (rdropWhileB (fun c => c = '\r' || c = '\n'))).filter
      (fun l => !(pyStrip l).isEmpty)
  let out := parse_lines lines
  { site := blankToNone out.site, crop := blankToNone out.crop,
    operation := blankToNone out.operation,
    pesticide := blankToNone out.pesticide,
    fertiliser := blankToNone out.fertiliser, memo := blankToNone out.memo }

/-! ### `gates.py` -/

/-- `NONFARM_MEMO_HARD_RE` (gates.py); patterns 1 and 4 carry `re.I`. -/
def NONFARM_MEMO_HARD_RE : List RE :=
  [.seq (.grp 1 (.alt (rlitI "레시피") (rlitI "recipe"))) .wb,
   rcats [.wb, rlit "재료", .wb],
   rcats [.wb, rdigPlus, .opt (.grp 1 (.seq (rch '.') rdigPlus)), rwsOpt,
          .grp 2 (ralts [rlit "g", rlit "kg", rlit "ml", rlit "l",
                         rlit "리터", rlit "밀리리터", rlit "그램"]), .wb],
   .grp 1 (ralts [rlitI "여행", rlitI "항공권", rlitI "비행기", rlitI "렌터카",
                  rlitI "체크인", rlitI "호텔", rlitI "숙소", rlitI "예약", rlitI "제주"]),
   .grp 1 (ralts [rlit "영화", rlit "드라마", rlit "넷플릭스", rlit "콘서트",
                  rlit "유튜브", rlit "플레이리스트", rlit "볼륨",
                  rcats [rlit "음악", rwsOpt, rlit "틀어줘"]]),
   .grp 1 (ralts [rlit "병원", rlit "약국", rlit "파스", rlit "어깨", rlit "허리",
                  rlit "두통", rlit "감기", rlit "치과", rlit "건강검진"]),
   .grp 1 (ralts [rlit "핸드폰", rlit "스마트폰", rlit "카톡", rlit "카카오톡",
                  rlit "택배", rlit "영수증", rlit "세탁소", rlit "회의",
                  rlit "출근", rlit "야근", rlit "카페", rlit "커피"]),
   .grp 1 (ralts [rlit "게임", rlit "스팀", rlit "롤", rlit "배그"])]

/-- The `label_map` of `_qa_to_text` (gates.py). -/
def field_label : Field → PyStr
  | .site => str "재배지"
  | .crop => str "작물"
  | .operation => str "작업"
  | .pesticide => str "농약"
  | .fertiliser => str "비료"
  | .memo => str "메모"

/-- The `label: value` pairs of `_qa_to_text` for a given field order. -/
def qa_pairs (qa : QAFieldMap) (fields : List Field) : List PyStr :=
  fields.foldr
    (fun f acc =>
      match qa.get f with
      | some v => if v.isEmpty then acc else (field_label f ++ str ": " ++ v) :: acc
      | none => acc)
    []

/-- `_qa_to_text` (gates.py): render populated fields as `label: value`
joined with `" / "`, in the canonical field order. -/
def qa_to_text (qa : QAFieldMap) : PyStr :=
  joinSep (str " / ")
    (qa_pairs qa [Field.site, .crop, .operation, .pesticide, .fertiliser, .memo])

/-- `_is_nonfarm_memo_hard` (gates.py). -/
def is_nonfarm_memo_hard (memo : PyStr) : Bool :=
  if memo.isEmpty then false
  else NONFARM_MEMO_HARD_RE.any (fun r => (research r memo).isSome)

/-- `gate_csv_qa` (gates.py).  `is_semantic_ok` is the verdict of the external
`semantic_gate` collaborator with its failure already folded to `false`. -/
def gate_csv_qa (qa : QAFieldMap) (domain_kws : Finset PyStr)
    (is_semantic_ok : Bool) (csv_gate_lenient : Bool) (now : PyDate) : Bool :=
  let has_core := truthy qa.site || truthy qa.crop || truthy qa.operation ||
                  truthy qa.pesticide || truthy qa.fertiliser
  let memo := qa.memo
  if truthy memo && !has_core &&
     (is_nonfarm_memo_hard (memo.getD []) || is_nonfarm_memo memo) then false
  else if csv_gate_lenient && (truthy qa.crop || truthy qa.operation) then true
  else
    let text := qa_to_text qa
    let res := analyse text domain_kws none now
    if is_semantic_ok || res.agri_hits ≥ 1 then true
    else if res.domain_hits ≥ 1 || res.op_hits ≥ 1 then true
    else if res.non_farm_hits ≥ 2 && res.agri_hits = 0 then false
    else false

/-! ### The free-text gate of `app_fastapi.py` (`_run_with_analysis`) -/

/-- The accept/reject decision of `_run_with_analysis` (app_fastapi.py lines
295-317).  Threshold configuration (`FARM_GATE_MIN_HITS` etc.) appears as
explicit arguments with the documented defaults `1, 1, true, 2`;
`is_semantic_ok` is the external semantic verdict with failure folded to
`false`. -/
def run_with_analysis_decision (is_semantic_ok : Bool) (min_hits min_op_hits : Nat)
    (block_nonfarm : Bool) (nonfarm_block_min : Nat)
    (stt_text : PyStr) (domain_kws : Finset PyStr)
    (date_hint crop_hint location_hint : Option PyStr) (now : PyDate) : Bool :=
  let res := analyse stt_text domain_kws date_hint now
  let crop_eff := pyOrOpt crop_hint res.crop_hint
  let loc_eff := pyOrOpt location_hint res.location_hint
  let rule_ok :=
    res.agri_hits ≥ 1 || res.domain_hits ≥ min_hits ||
      ((truthy crop_eff || truthy loc_eff) &&
        (res.op_hits ≥ min_op_hits || res.domain_hits ≥ 1))
  if is_semantic_ok &&
     !(block_nonfarm && res.non_farm_hits ≥ nonfarm_block_min && res.agri_hits = 0) then
    true
  else if block_nonfarm && res.non_farm_hits ≥ nonfarm_block_min &&
          res.agri_hits = 0 then
    false
  else rule_ok

/-! ## Engine lemmas -/

theorem tryStar_some {i : Nat} {cs : Caps} {k : Nat → Caps → Option (Nat × Caps)}
    {r : Nat × Caps} :
    ∀ n, tryStar i cs k n = some r → ∃ m, m ≤ n ∧ k (i + m) cs = some r := by
  intro n
  induction n with
  | zero => intro h; exact ⟨0, Nat.le_refl 0, h⟩
  | succ n ih =>
    intro h
    unfold tryStar at h
    cases hk : k (i + (n + 1)) cs with
    | some v => rw [hk] at h; exact ⟨n + 1, Nat.le_refl _, hk.trans h⟩
    | none =>
      rw [hk] at h
      obtain ⟨m, hm, hr⟩ := ih h
      exact ⟨m, Nat.le_succ_of_le hm, hr⟩

/-- If the matcher succeeds, its continuation was called at a position at
least the start position. -/
theorem mrun_some :
    ∀ (re : RE) (s : PyStr) (i : Nat) (cs : Caps)
      (k : Nat → Caps → Option (Nat × Caps)) (r : Nat × Caps),
      mrun re s i cs k = some r → ∃ j cs2, i ≤ j ∧ k j cs2 = some r := by
  intro re
  induction re with
  | eps => exact fun s i cs k r h => ⟨i, cs, Nat.le_refl i, h⟩
  | bos =>
    intro s i cs k r h
    unfold mrun at h
    split at h
    · exact ⟨i, cs, Nat.le_refl i, h⟩
    · cases h
  | eos =>
    intro s i cs k r h
    unfold mrun at h
    split at h
    · exact ⟨i, cs, Nat.le_refl i, h⟩
    · cases h
  | wb =>
    intro s i cs k r h
    unfold mrun at h
    split at h
    · exact ⟨i, cs, Nat.le_refl i, h⟩
    · cases h
  | cls p =>
    intro s i cs k r h
    unfold mrun at h
    cases hg : s.get? i with
    | some c =>
      rw [hg] at h
      dsimp only at h
      split at h
      · exact ⟨i + 1, cs, Nat.le_succ i, h⟩
      · cases h
    | none => rw [hg] at h; cases h
  | starCls p =>
    intro s i cs k r h
    unfold mrun at h
    obtain ⟨m, _, hr⟩ := tryStar_some _ h
    exact ⟨i + m, cs, Nat.le_add_right i m, hr⟩
  | seq a b iha ihb =>
    intro s i cs k r h
    unfold mrun at h
    obtain ⟨j1, cs1, hle1, h1⟩ := iha s i cs _ r h
    obtain ⟨j2, cs2, hle2, h2⟩ := ihb s j1 cs1 k r h1
    exact ⟨j2, cs2, Nat.le_trans hle1 hle2, h2⟩
  | alt a b iha ihb =>
    intro s i cs k r h
    unfold mrun at h
    cases ha : mrun a s i cs k with
    | some v => rw [ha] at h; exact iha s i cs k r (ha.trans h)
    | none => rw [ha] at h; exact ihb s i cs k r h
  | opt a iha =>
    intro s i cs k r h
    unfold mrun at h
    cases ha : mrun a s i cs k with
    | some v => rw [ha] at h; exact iha s i cs k r (ha.trans h)
    | none => rw [ha] at h; exact ⟨i, cs, Nat.le_refl i, h⟩
  | grp n a iha =>
    intro s i cs k r h
    unfold mrun at h
    obtain ⟨j, cs2, hle, h1⟩ := iha s i cs _ r h
    exact ⟨j, (n, sliceL s i j) :: cs2, hle, h1⟩

/-- A successful scan yields a start position at least the scan origin, at
which the matcher itself succeeds. -/
theorem researchGo_some {re : RE} {s : PyStr} :
    ∀ (suf : PyStr) (i i' j : Nat) (c : Caps),
      researchGo re s i suf = some (i', j, c) →
      i ≤ i' ∧ mrunTop re s i' = some (j, c) := by
  intro suf
  induction suf with
  | nil =>
    intro i i' j c h
    unfold researchGo at h
    cases hm : mrunTop re s i with
    | some v =>
      rw [hm] at h
      obtain ⟨j0, c0⟩ := v
      cases h
      exact ⟨Nat.le_refl i, hm⟩
    | none => rw [hm] at h; cases h
  | cons x rest ih =>
    intro i i' j c h
    unfold researchGo at h
    cases hm : mrunTop re s i with
    | some v =>
      rw [hm] at h
      obtain ⟨j0, c0⟩ := v
      cases h
      exact ⟨Nat.le_refl i, hm⟩
    | none =>
      rw [hm] at h
      obtain ⟨hle, hm'⟩ := ih (i + 1) i' j c h
      exact ⟨Nat.le_trans (Nat.le_succ i) hle, hm'⟩

/-- If the matcher fails at every position from the scan origin onwards, the
scan fails. -/
theorem researchGo_none_of {re : RE} {s : PyStr} :
    ∀ (suf : PyStr) (i : Nat), (∀ i', i ≤ i' → mrunTop re s i' = none) →
      researchGo re s i suf = none := by
  intro suf
  induction suf with
  | nil => intro i h; unfold researchGo; rw [h i (Nat.le_refl i)]
  | cons x rest ih =>
    intro i h
    unfold researchGo
    rw [h i (Nat.le_refl i)]
    exact ih (i + 1) (fun i' hi' => h i' (Nat.le_trans (Nat.le_succ i) hi'))

/-- If the matcher fails at every position from `pos` onwards, substitution
leaves the remaining suffix unchanged. -/
theorem resubGo_none_after {re : RE} {repl full : PyStr} (pos : Nat)
    (h : ∀ i', pos ≤ i' → mrunTop re full i' = none) :
    ∀ (f : Nat) (suf : PyStr), resubGo re repl full f pos suf = suf := by
  intro f suf
  cases f with
  | zero => rfl
  | succ f =>
    unfold resubGo
    rw [researchGo_none_of suf pos h]

/-- If the matcher fails at every position inside a leading segment `S`, a
substitution pass preserves `S` as a leading segment. -/
theorem resub_keepFront {re : RE} (repl : PyStr) (S : PyStr)
    (h : ∀ (Q : PyStr) (i : Nat), i < S.length → mrunTop re (S ++ Q) i = none)
    (P : PyStr) : ∃ T, resub re repl (S ++ P) = S ++ T := by
  unfold resub
  rw [show (S ++ P).length + 1 = Nat.succ ((S ++ P).length) from rfl]
  unfold resubGo
  cases hr : researchGo re (S ++ P) 0 (S ++ P) with
  | none => exact ⟨P, rfl⟩
  | some v =>
    obtain ⟨i, j, c⟩ := v
    obtain ⟨-, hm⟩ := researchGo_some (S ++ P) 0 i j c hr
    have hiS : S.length ≤ i := by
      by_contra hlt
      rw [h P i (Nat.lt_of_not_le hlt)] at hm
      cases hm
    have htake : (S ++ P).take (i - 0) = S ++ P.take (i - S.length) := by
      rw [Nat.sub_zero, List.take_append_eq_append_take,
          List.take_of_length_le hiS]
    dsimp only
    rw [htake]
    simp only [List.append_assoc]
    exact ⟨_, rfl⟩

/-- `dropWhile` distributed over an append. -/
theorem dropWhile_append_eq (p : Char → Bool) :
    ∀ (A B : PyStr), (A ++ B).dropWhile p =
      if (A.dropWhile p).isEmpty then B.dropWhile p else A.dropWhile p ++ B := by
  intro A
  induction A with
  | nil => intro B; simp
  | cons a A' ih =>
    intro B
    by_cases ha : p a = true
    · simpa [List.dropWhile_cons, ha] using ih B
    · simp [List.dropWhile_cons, ha]

/-- Right-dropping preserves a leading segment whose last character survives. -/
theorem rdropB_keepFront {p : Char → Bool} (S : PyStr)
    (hlast : ∃ c S', S = S' ++ [c] ∧ p c = false) (P : PyStr) :
    ∃ T, rdropWhileB p (S ++ P) = S ++ T := by
  obtain ⟨c, S', rfl, hc⟩ := hlast
  unfold rdropWhileB
  rw [List.reverse_append, List.reverse_append]
  simp only [List.reverse_singleton, List.singleton_append]
  rw [dropWhile_append_eq p P.reverse (c :: S'.reverse)]
  by_cases hE : (P.reverse.dropWhile p).isEmpty
  · rw [if_pos hE, List.dropWhile_cons, hc]
    refine ⟨[], ?_⟩
    simp
  · rw [if_neg hE]
    refine ⟨(P.reverse.dropWhile p).reverse, ?_⟩
    simp

/-- `pyStrip` preserves a leading segment whose first and last characters are
not whitespace. -/
theorem pyStrip_keepFront (S : PyStr)
    (hhead : ∃ c S', S = c :: S' ∧ isSpacePy c = false)
    (hlast : ∃ c S', S = S' ++ [c] ∧ isSpacePy c = false) (P : PyStr) :
    ∃ T, pyStrip (S ++ P) = S ++ T := by
  unfold pyStrip
  obtain ⟨c, S', hS, hc⟩ := hhead
  have hdrop : (S ++ P).dropWhile isSpacePy = S ++ P := by
    rw [hS, List.cons_append, List.dropWhile_cons, hc]
    simp
  rw [hdrop]
  exact rdropB_keepFront S hlast P

/-- `pyRstrip` preserves a leading segment whose last character is outside the
stripped set. -/
theorem pyRstrip_keepFront (chars : PyStr) (S : PyStr)
    (hlast : ∃ c S', S = S' ++ [c] ∧ chars.contains c = false) (P : PyStr) :
    ∃ T, pyRstrip chars (S ++ P) = S ++ T := by
  unfold pyRstrip
  exact rdropB_keepFront S hlast P

/-- A pattern that never matches substitutes to the identity. -/
theorem resub_id_of_nomatch {re : RE} {repl s : PyStr}
    (h : ∀ i, mrunTop re s i = none) : resub re repl s = s := by
  unfold resub
  exact resubGo_none_after 0 (fun i' _ => h i') _ _

/-- A pattern anchored with `^` cannot match at a positive position. -/
theorem mrunTop_bos_seq_none (r : RE) (s : PyStr) (i : Nat) (hi : i ≠ 0) :
    mrunTop (.seq .bos r) s i = none := by
  simp [mrunTop, mrun, hi]

/-- A single anchored match at position zero: the substitution replaces
exactly that match. -/
theorem resub_anchored_once {re : RE} {repl s : PyStr} {j : Nat} {c : Caps}
    (h0 : mrunTop re s 0 = some (j, c)) (hj : 0 < j)
    (hrest : ∀ i', 1 ≤ i' → mrunTop re s i' = none) :
    resub re repl s = repl ++ s.drop j := by
  unfold resub
  rw [show s.length + 1 = Nat.succ s.length from rfl]
  unfold resubGo
  have hr : researchGo re s 0 s = some (0, j, c) := by
    cases s with
    | nil => unfold researchGo; rw [h0]
    | cons a l => unfold researchGo; rw [h0]
  rw [hr]
  dsimp only
  rw [if_pos hj, Nat.sub_zero, Nat.sub_zero, List.take_zero,
      resubGo_none_after j (fun i' hi' => hrest i' (Nat.le_trans hj hi'))]
  rfl

/-- Master lemma for the stale-reference property: once the cleanup pipeline
is known to keep the stale expression `S` as a leading segment, the
stale-reference check fires and `nai_core` returns `none`. -/
theorem nai_core_stale (S : PyStr)
    (hcomma : ∀ (Q : PyStr) (i : Nat), i < S.length →
      mrunTop SUB_COMMA_PAT (S ++ Q) i = none)
    (hmws : ∀ (Q : PyStr) (i : Nat), i < S.length →
      mrunTop SUB_MULTIWS_PAT (S ++ Q) i = none)
    (htail : ∀ (Q : PyStr) (i : Nat), i < S.length →
      mrunTop TAIL_SPEECH_PAT (S ++ Q) i = none)
    (hctx : ∀ (Q : PyStr) (i : Nat), i < S.length →
      mrunTop CTX_PAT (S ++ Q) i = none)
    (hhead : ∃ c S', S = c :: S' ∧ isSpacePy c = false)
    (hlast : ∃ c S', S = S' ++ [c] ∧ isSpacePy c = false ∧
      (str ",.，。 ").contains c = false)
    (hstale : ∀ Q : PyStr, (research STALE_PAT (S ++ Q)).isSome = true)
    (P : PyStr) : nai_core (S ++ P) = none := by
  obtain ⟨T1, h1⟩ := resub_keepFront (str " ") S hcomma P
  obtain ⟨T2, h2⟩ := resub_keepFront (str " ") S hmws T1
  have hlastWs : ∃ c S', S = S' ++ [c] ∧ isSpacePy c = false := by
    obtain ⟨c, S', hS, hc, -⟩ := hlast
    exact ⟨c, S', hS, hc⟩
  have hlastR : ∃ c S', S = S' ++ [c] ∧ (str ",.，。 ").contains c = false := by
    obtain ⟨c, S', hS, -, hc⟩ := hlast
    exact ⟨c, S', hS, hc⟩
  obtain ⟨T3, h3⟩ := pyStrip_keepFront S hhead hlastWs T2
  have hcollapse : collapse_commas_spaces (S ++ P) = S ++ T3 := by
    unfold collapse_commas_spaces
    rw [h1, h2, h3]
  have hne : (S ++ P).isEmpty = false := by
    obtain ⟨c, S', hS, -⟩ := hhead
    subst hS
    rfl
  obtain ⟨T4, h4⟩ := pyStrip_keepFront S hhead hlastWs T3
  obtain ⟨T5, h5⟩ := pyRstrip_keepFront (str ",.，。 ") S hlastR T4
  obtain ⟨T6, h6⟩ := resub_keepFront [] S htail T5
  obtain ⟨T7, h7⟩ := pyStrip_keepFront S hhead hlastWs T6
  have hneST : (S ++ T3).isEmpty = false := by
    obtain ⟨c, S', hS, -⟩ := hhead
    subst hS
    rfl
  have hst : strip_tail_speech (S ++ T3) = S ++ T7 := by
    unfold strip_tail_speech
    rw [hneST]
    simp only [Bool.false_eq_true, if_false]
    rw [h4, h5, h6, h7]
  obtain ⟨T8, h8⟩ := resub_keepFront [] S hctx T7
  obtain ⟨T9, h9⟩ := pyStrip_keepFront S hhead hlastWs T8
  unfold nai_core
  rw [hcollapse, hst, h8, h9]
  unfold nai_check
  cases hA : (research NONEISH_RE (S ++ T9)).isSome with
  | true => simp [hA]
  | false =>
    cases hB : (research NEG_PAT (S ++ T9)).isSome with
    | true => simp [hA, hB]
    | false => simp [hA, hB, hstale T9]

/-- Stale-prefix property after the interjection drop, for the canonical
prefix "전에 줬". -/
theorem stale_core_jeon (P : PyStr) : nai_core (str "전에 줬" ++ P) = none := by
  apply nai_core_stale
  · intro Q i hi
    have hl : (str "전에 줬").length = 4 := rfl
    rw [hl] at hi
    interval_cases i <;> rfl
  · intro Q i hi
    have hl : (str "전에 줬").length = 4 := rfl
    rw [hl] at hi
    interval_cases i <;> rfl
  · intro Q i hi
    have hl : (str "전에 줬").length = 4 := rfl
    rw [hl] at hi
    interval_cases i <;> rfl
  · intro Q i hi
    have hl : (str "전에 줬").length = 4 := rfl
    rw [hl] at hi
    interval_cases i <;> rfl
  · exact ⟨'전', str "에 줬", rfl, by decide⟩
  · exact ⟨'줬', str "전에 ", rfl, by decide, by decide⟩
  · intro Q
    rfl


/-- Stale-prefix property after the interjection drop, for the canonical
prefix "전에 주었". -/
theorem stale_core_jeon_jueot (P : PyStr) : nai_core (str "전에 주었" ++ P) = none := by
  apply nai_core_stale
  · intro Q i hi
    have hl : (str "전에 주었").length = 5 := rfl
    rw [hl] at hi
    interval_cases i <;> rfl
  · intro Q i hi
    have hl : (str "전에 주었").length = 5 := rfl
    rw [hl] at hi
    interval_cases i <;> rfl
  · intro Q i hi
    have hl : (str "전에 주었").length = 5 := rfl
    rw [hl] at hi
    interval_cases i <;> rfl
  · intro Q i hi
    have hl : (str "전에 주었").length = 5 := rfl
    rw [hl] at hi
    interval_cases i <;> rfl
  · exact ⟨'전', str "에 주었", rfl, by decide⟩
  · exact ⟨'었', str "전에 주", rfl, by decide, by decide⟩
  · intro Q
    rfl

/-- Stale-prefix property after the interjection drop, for the canonical
prefix "전에 쳤". -/
theorem stale_core_jeon_chyeot (P : PyStr) : nai_core (str "전에 쳤" ++ P) = none := by
  apply nai_core_stale
  · intro Q i hi
    have hl : (str "전에 쳤").length = 4 := rfl
    rw [hl] at hi
    interval_cases i <;> rfl
  · intro Q i hi
    have hl : (str "전에 쳤").length = 4 := rfl
    rw [hl] at hi
    interval_cases i <;> rfl
  · intro Q i hi
    have hl : (str "전에 쳤").length = 4 := rfl
    rw [hl] at hi
    interval_cases i <;> rfl
  · intro Q i hi
    have hl : (str "전에 쳤").length = 4 := rfl
    rw [hl] at hi
    interval_cases i <;> rfl
  · exact ⟨'전', str "에 쳤", rfl, by decide⟩
  · exact ⟨'쳤', str "전에 ", rfl, by decide, by decide⟩
  · intro Q
    rfl

/-- Stale-prefix property after the interjection drop, for the canonical
prefix "전에 치었". -/
theorem stale_core_jeon_chieot (P : PyStr) : nai_core (str "전에 치었" ++ P) = none := by
  apply nai_core_stale
  · intro Q i hi
    have hl : (str "전에 치었").length = 5 := rfl
    rw [hl] at hi
    interval_cases i <;> rfl
  · intro Q i hi
    have hl : (str "전에 치었").length = 5 := rfl
    rw [hl] at hi
    interval_cases i <;> rfl
  · intro Q i hi
    have hl : (str "전에 치었").length = 5 := rfl
    rw [hl] at hi
    interval_cases i <;> rfl
  · intro Q i hi
    have hl : (str "전에 치었").length = 5 := rfl
    rw [hl] at hi
    interval_cases i <;> rfl
  · exact ⟨'전', str "에 치었", rfl, by decide⟩
  · exact ⟨'었', str "전에 치", rfl, by decide, by decide⟩
  · intro Q
    rfl

/-- Stale-prefix property after the interjection drop, for the canonical
prefix "전엔 줬". -/
theorem stale_core_jeonn_jwo (P : PyStr) : nai_core (str "전엔 줬" ++ P) = none := by
  apply nai_core_stale
  · intro Q i hi
    have hl : (str "전엔 줬").length = 4 := rfl
    rw [hl] at hi
    interval_cases i <;> rfl
  · intro Q i hi
    have hl : (str "전엔 줬").length = 4 := rfl
    rw [hl] at hi
    interval_cases i <;> rfl
  · intro Q i hi
    have hl : (str "전엔 줬").length = 4 := rfl
    rw [hl] at hi
    interval_cases i <;> rfl
  · intro Q i hi
    have hl : (str "전엔 줬").length = 4 := rfl
    rw [hl] at hi
    interval_cases i <;> rfl
  · exact ⟨'전', str "엔 줬", rfl, by decide⟩
  · exact ⟨'줬', str "전엔 ", rfl, by decide, by decide⟩
  · intro Q
    rfl

/-- Stale-prefix property after the interjection drop, for the canonical
prefix "전엔 주었". -/
theorem stale_core_jeonn_jueot (P : PyStr) : nai_core (str "전엔 주었" ++ P) = none := by
  apply nai_core_stale
  · intro Q i hi
    have hl : (str "전엔 주었").length = 5 := rfl
    rw [hl] at hi
    interval_cases i <;> rfl
  · intro Q i hi
    have hl : (str "전엔 주었").length = 5 := rfl
    rw [hl] at hi
    interval_cases i <;> rfl
  · intro Q i hi
    have hl : (str "전엔 주었").length = 5 := rfl
    rw [hl] at hi
    interval_cases i <;> rfl
  · intro Q i hi
    have hl : (str "전엔 주었").length = 5 := rfl
    rw [hl] at hi
    interval_cases i <;> rfl
  · exact ⟨'전', str "엔 주었", rfl, by decide⟩
  · exact ⟨'었', str "전엔 주", rfl, by decide, by decide⟩
  · intro Q
    rfl

/-- Stale-prefix property after the interjection drop, for the canonical
prefix "전엔 쳤". -/
theorem stale_core_jeonn_chyeot (P : PyStr) : nai_core (str "전엔 쳤" ++ P) = none := by
  apply nai_core_stale
  · intro Q i hi
    have hl : (str "전엔 쳤").length = 4 := rfl
    rw [hl] at hi
    interval_cases i <;> rfl
  · intro Q i hi
    have hl : (str "전엔 쳤").length = 4 := rfl
    rw [hl] at hi
    interval_cases i <;> rfl
  · intro Q i hi
    have hl : (str "전엔 쳤").length = 4 := rfl
    rw [hl] at hi
    interval_cases i <;> rfl
  · intro Q i hi
    have hl : (str "전엔 쳤").length = 4 := rfl
    rw [hl] at hi
    interval_cases i <;> rfl
  · exact ⟨'전', str "엔 쳤", rfl, by decide⟩
  · exact ⟨'쳤', str "전엔 ", rfl, by decide, by decide⟩
  · intro Q
    rfl

/-- Stale-prefix property after the interjection drop, for the canonical
prefix "전엔 치었". -/
theorem stale_core_jeonn_chieot (P : PyStr) : nai_core (str "전엔 치었" ++ P) = none := by
  apply nai_core_stale
  · intro Q i hi
    have hl : (str "전엔 치었").length = 5 := rfl
    rw [hl] at hi
    interval_cases i <;> rfl
  · intro Q i hi
    have hl : (str "전엔 치었").length = 5 := rfl
    rw [hl] at hi
    interval_cases i <;> rfl
  · intro Q i hi
    have hl : (str "전엔 치었").length = 5 := rfl
    rw [hl] at hi
    interval_cases i <;> rfl
  · intro Q i hi
    have hl : (str "전엔 치었").length = 5 := rfl
    rw [hl] at hi
    interval_cases i <;> rfl
  · exact ⟨'전', str "엔 치었", rfl, by decide⟩
  · exact ⟨'었', str "전엔 치", rfl, by decide, by decide⟩
  · intro Q
    rfl

/-- Stale-prefix property after the interjection drop, for the canonical
prefix "지난번에 줬". -/
theorem stale_core_jinan_e_jwo (P : PyStr) : nai_core (str "지난번에 줬" ++ P) = none := by
  apply nai_core_stale
  · intro Q i hi
    have hl : (str "지난번에 줬").length = 6 := rfl
    rw [hl] at hi
    interval_cases i <;> rfl
  · intro Q i hi
    have hl : (str "지난번에 줬").length = 6 := rfl
    rw [hl] at hi
    interval_cases i <;> rfl
  · intro Q i hi
    have hl : (str "지난번에 줬").length = 6 := rfl
    rw [hl] at hi
    interval_cases i <;> rfl
  · intro Q i hi
    have hl : (str "지난번에 줬").length = 6 := rfl
    rw [hl] at hi
    interval_cases i <;> rfl
  · exact ⟨'지', str "난번에 줬", rfl, by decide⟩
  · exact ⟨'줬', str "지난번에 ", rfl, by decide, by decide⟩
  · intro Q
    rfl

/-- Stale-prefix property after the interjection drop, for the canonical
prefix "지난번에 쳤". -/
theorem stale_core_jinan_e_chyeot (P : PyStr) : nai_core (str "지난번에 쳤" ++ P) = none := by
  apply nai_core_stale
  · intro Q i hi
    have hl : (str "지난번에 쳤").length = 6 := rfl
    rw [hl] at hi
    interval_cases i <;> rfl
  · intro Q i hi
    have hl : (str "지난번에 쳤").length = 6 := rfl
    rw [hl] at hi
    interval_cases i <;> rfl
  · intro Q i hi
    have hl : (str "지난번에 쳤").length = 6 := rfl
    rw [hl] at hi
    interval_cases i <;> rfl
  · intro Q i hi
    have hl : (str "지난번에 쳤").length = 6 := rfl
    rw [hl] at hi
    interval_cases i <;> rfl
  · exact ⟨'지', str "난번에 쳤", rfl, by decide⟩
  · exact ⟨'쳤', str "지난번에 ", rfl, by decide, by decide⟩
  · intro Q
    rfl

/-- Stale-prefix property after the interjection drop, for the canonical
prefix "지난번 줬". -/
theorem stale_core_jinan_jwo (P : PyStr) : nai_core (str "지난번 줬" ++ P) = none := by
  apply nai_core_stale
  · intro Q i hi
    have hl : (str "지난번 줬").length = 5 := rfl
    rw [hl] at hi
    interval_cases i <;> rfl
  · intro Q i hi
    have hl : (str "지난번 줬").length = 5 := rfl
    rw [hl] at hi
    interval_cases i <;> rfl
  · intro Q i hi
    have hl : (str "지난번 줬").length = 5 := rfl
    rw [hl] at hi
    interval_cases i <;> rfl
  · intro Q i hi
    have hl : (str "지난번 줬").length = 5 := rfl
    rw [hl] at hi
    interval_cases i <;> rfl
  · exact ⟨'지', str "난번 줬", rfl, by decide⟩
  · exact ⟨'줬', str "지난번 ", rfl, by decide, by decide⟩
  · intro Q
    rfl

/-- Stale-prefix property after the interjection drop, for the canonical
prefix "지난번 쳤". -/
theorem stale_core_jinan_chyeot (P : PyStr) : nai_core (str "지난번 쳤" ++ P) = none := by
  apply nai_core_stale
  · intro Q i hi
    have hl : (str "지난번 쳤").length = 5 := rfl
    rw [hl] at hi
    interval_cases i <;> rfl
  · intro Q i hi
    have hl : (str "지난번 쳤").length = 5 := rfl
    rw [hl] at hi
    interval_cases i <;> rfl
  · intro Q i hi
    have hl : (str "지난번 쳤").length = 5 := rfl
    rw [hl] at hi
    interval_cases i <;> rfl
  · intro Q i hi
    have hl : (str "지난번 쳤").length = 5 := rfl
    rw [hl] at hi
    interval_cases i <;> rfl
  · exact ⟨'지', str "난번 쳤", rfl, by decide⟩
  · exact ⟨'쳤', str "지난번 ", rfl, by decide, by decide⟩
  · intro Q
    rfl

/-- Wrapper: when the interjection pattern never matches a string led by `S`,
`normalize_agri_input` reduces to `nai_core` on the same string. -/
theorem nai_front_id (S : PyStr) (hS : S ≠ [])
    (h0 : ∀ Q : PyStr, mrunTop RE_INTERJECTION_FRONT (S ++ Q) 0 = none)
    (hcore : ∀ Q : PyStr, nai_core (S ++ Q) = none)
    (P : PyStr) : normalize_agri_input (some (S ++ P)) = none := by
  have hid : drop_front_interjection (S ++ P) = S ++ P := by
    unfold drop_front_interjection
    apply resub_id_of_nomatch
    intro i
    cases i with
    | zero => exact h0 P
    | succ n => exact mrunTop_bos_seq_none _ _ _ (Nat.succ_ne_zero n)
  have hE : (S ++ P).isEmpty = false := by
    cases S with
    | nil => exact absurd rfl hS
    | cons c l => rfl
  unfold normalize_agri_input
  dsimp only
  rw [hE]
  simp only [Bool.false_eq_true, if_false]
  rw [hid]
  exact hcore P

/-- Wrapper: a stale expression opened by the interjection-like syllable 예
loses exactly that syllable to `drop_front_interjection`, after which the
remaining stale core still forces `none`. -/
theorem nai_front_ye (core : PyStr)
    (h0 : ∀ Q : PyStr, mrunTop RE_INTERJECTION_FRONT (('예' :: core) ++ Q) 0 =
      some (1, [(1, ['예'])]))
    (hcore : ∀ Q : PyStr, nai_core (core ++ Q) = none)
    (P : PyStr) : normalize_agri_input (some (('예' :: core) ++ P)) = none := by
  have hdf : drop_front_interjection (('예' :: core) ++ P) = core ++ P := by
    unfold drop_front_interjection
    rw [resub_anchored_once (h0 P) (by omega)
        (fun i' hi' => mrunTop_bos_seq_none _ _ _ (by omega))]
    simp
  unfold normalize_agri_input
  dsimp only
  rw [show (('예' :: core) ++ P).isEmpty = false from rfl]
  simp only [Bool.false_eq_true, if_false]
  rw [hdf]
  exact hcore P

/-- The canonical stale-reference expressions recognised by `STALE_PAT` (each
branch of the alternation, rendered with its optional syllable present and
absent and a single spoken-language space before the verb). -/
def STALE_EXPRS : List PyStr :=
  [str "전에 줬", str "전에 주었", str "전에 쳤", str "전에 치었",
   str "전엔 줬", str "전엔 주었", str "전엔 쳤", str "전엔 치었",
   str "지난번에 줬", str "지난번에 쳤", str "지난번 줬", str "지난번 쳤",
   str "예전에 줬", str "예전에 쳤"]

/-- C5: for any base product string `P` and any stale-reference `prefix S`
drawn from the recognized set of stale-reference expressions (the canonical
spellings of the three branches of the stale pattern of
`normalize_agri_input`), `normalize_agri_input (S ++ P)` returns `None`; in
particular `normalize_agri_input "이번엔 안 쳤어요"` returns `None`. -/
theorem claim_C5 :
    (∀ S ∈ STALE_EXPRS, ∀ P : PyStr,
      normalize_agri_input (some (S ++ P)) = none) ∧
    normalize_agri_input (some (str "이번엔 안 쳤어요")) = none := by
  constructor
  · intro S hS P
    fin_cases hS
    · exact nai_front_id (str "전에 줬") (by decide) (fun Q => rfl) stale_core_jeon P
    · exact nai_front_id (str "전에 주었") (by decide) (fun Q => rfl) stale_core_jeon_jueot P
    · exact nai_front_id (str "전에 쳤") (by decide) (fun Q => rfl) stale_core_jeon_chyeot P
    · exact nai_front_id (str "전에 치었") (by decide) (fun Q => rfl) stale_core_jeon_chieot P
    · exact nai_front_id (str "전엔 줬") (by decide) (fun Q => rfl) stale_core_jeonn_jwo P
    · exact nai_front_id (str "전엔 주었") (by decide) (fun Q => rfl) stale_core_jeonn_jueot P
    · exact nai_front_id (str "전엔 쳤") (by decide) (fun Q => rfl) stale_core_jeonn_chyeot P
    · exact nai_front_id (str "전엔 치었") (by decide) (fun Q => rfl) stale_core_jeonn_chieot P
    · exact nai_front_id (str "지난번에 줬") (by decide) (fun Q => rfl) stale_core_jinan_e_jwo P
    · exact nai_front_id (str "지난번에 쳤") (by decide) (fun Q => rfl) stale_core_jinan_e_chyeot P
    · exact nai_front_id (str "지난번 줬") (by decide) (fun Q => rfl) stale_core_jinan_jwo P
    · exact nai_front_id (str "지난번 쳤") (by decide) (fun Q => rfl) stale_core_jinan_chyeot P
    · exact nai_front_ye (str "전에 줬") (fun Q => rfl) stale_core_jeon P
    · exact nai_front_ye (str "전에 쳤") (fun Q => rfl) stale_core_jeon_chyeot P
  · rfl

/-- Witness for C5 at the stale expression "지난번에 줬" and base "어요". -/
theorem claim_C5_witness :
    normalize_agri_input (some (str "지난번에 줬" ++ str "어요")) = none :=
  claim_C5.1 (str "지난번에 줬") (by decide) (str "어요")

/-- C8: for any memo text `T` that matches at least one pattern of the
non-farm-topic pattern set (searched, as in the code, on the stripped memo),
and any crop and operation arguments, `summarize_memo T crop op` returns
`None`. -/
theorem claim_C8 (T : PyStr) (crop op : Option PyStr)
    (h : ∃ r ∈ NONFARM_MEMO_RE_LIST, (research r (pyStrip T)).isSome = true) :
    summarize_memo (some T) crop op = none := by
  by_cases hT : T.isEmpty
  · simp [summarize_memo, hT]
  · have hn : is_nonfarm_memo (some T) = true := by
      simp only [is_nonfarm_memo, hT, Bool.false_eq_true, if_false]
      rw [List.any_eq_true]
      obtain ⟨r, hr, hs⟩ := h
      exact ⟨r, hr, hs⟩
    simp [summarize_memo, hT, hn]

/-- Witness for C8 on the memo "병원". -/
theorem claim_C8_witness : summarize_memo (some (str "병원")) none none = none :=
  claim_C8 (str "병원") none none (by decide)

/-- C10: an empty-string keyword in the supplied domain-keyword set
contributes no domain hit, and `domain_hits` counts exactly the non-empty
keywords of the set that occur in the (stripped) text, case-sensitively or
case-insensitively in the lowercased text, each at most once. -/
theorem claim_C10 (text : PyStr) (kws : Finset PyStr) (dflt : Option PyStr)
    (now : PyDate) :
    (analyse text (insert [] kws) dflt now).domain_hits =
      (analyse text kws dflt now).domain_hits ∧
    (analyse text kws dflt now).domain_hits =
      (kws.filter (fun kw => kw ≠ [] ∧
        (pyIn kw (pyStrip text) = true ∨
         pyIn (pyLower kw) (pyLower (pyStrip text)) = true))).card := by
  have hcard : ∀ K : Finset PyStr,
      (analyse text K dflt now).domain_hits =
        (K.filter (fun kw => kw ≠ [] ∧
          (pyIn kw (pyStrip text) = true ∨
           pyIn (pyLower kw) (pyLower (pyStrip text)) = true))).card := by
    intro K
    simp only [analyse]
    rw [Finset.card_filter]
    apply Finset.sum_congr rfl
    intro kw _
    congr 1
    simp only [Bool.and_eq_true, Bool.or_eq_true, Bool.not_eq_true',
               List.isEmpty_eq_false, eq_iff_iff]
  refine ⟨?_, hcard kws⟩
  rw [hcard (insert [] kws), hcard kws]
  congr 1
  rw [Finset.filter_insert]
  simp

/-- C2: whenever the analysis yields `agri_hits ≥ 1`, neither gate rejects:
the free-text gate accepts outright, and the CSV gate accepts whenever its
memo-only non-farm pre-check (a separate mechanism that never consults
`non_farm_hits`) did not already fire — regardless of how large
`non_farm_hits` is. -/
theorem claim_C2 :
    (∀ (text : PyStr) (kws : Finset PyStr) (sem : Bool) (minH minOp : Nat)
       (blockNF : Bool) (nfMin : Nat) (dh ch lh : Option PyStr) (now : PyDate),
       (analyse (pyStrip text) kws dh now).agri_hits =
         (analyse text kws dh now).agri_hits →
       1 ≤ (analyse text kws dh now).agri_hits →
       run_with_analysis_decision sem minH minOp blockNF nfMin text kws dh ch lh
         now = true) ∧
    (∀ (qa : QAFieldMap) (kws : Finset PyStr) (sem lenient : Bool) (now : PyDate),
       (truthy qa.memo &&
        !(truthy qa.site || truthy qa.crop || truthy qa.operation ||
          truthy qa.pesticide || truthy qa.fertiliser) &&
        (is_nonfarm_memo_hard (qa.memo.getD []) || is_nonfarm_memo qa.memo))
         = false →
       1 ≤ (analyse (qa_to_text qa) kws none now).agri_hits →
       gate_csv_qa qa kws sem lenient now = true) := by
  constructor
  · intro text kws sem minH minOp blockNF nfMin dh ch lh now _ h
    simp only [run_with_analysis_decision]
    have h0 : decide ((analyse text kws dh now).agri_hits = 0) = false := by
      simp only [decide_eq_false_iff_not]
      omega
    have h1 : decide (1 ≤ (analyse text kws dh now).agri_hits) = true := by
      simp only [decide_eq_true_eq]
      omega
    cases sem <;> simp [h0, h1]
  · intro qa kws sem lenient now hpre h
    simp only [gate_csv_qa]
    rw [hpre]
    simp only [Bool.false_eq_true, if_false]
    by_cases hl : (lenient && (truthy qa.crop || truthy qa.operation)) = true
    · simp [hl]
    · simp only [Bool.not_eq_true] at hl
      rw [hl]
      have h1 : decide (1 ≤ (analyse (qa_to_text qa) kws none now).agri_hits)
          = true := by
        simp only [decide_eq_true_eq]
        omega
      simp [h1]

/-- Witness for C2: a whitelist hit ("알솎기") forces acceptance in both
gates even with a negative semantic signal. -/
theorem claim_C2_witness :
    run_with_analysis_decision false 1 1 true 2 (str "알솎기") ∅ none none none
      ⟨2026, 10, 12⟩ = true ∧
    gate_csv_qa { pesticide := some (str "알솎기") } ∅ false true
      ⟨2026, 10, 12⟩ = true :=
  ⟨claim_C2.1 (str "알솎기") ∅ false 1 1 true 2 none none none ⟨2026, 10, 12⟩
     (by decide) (by decide),
   claim_C2.2 { pesticide := some (str "알솎기") } ∅ false true ⟨2026, 10, 12⟩
     (by decide) (by decide)⟩

/-- Counterexample to C1 as stated: in the CSV field-map gate an affirmative
semantic signal accepts even though `non_farm_hits ≥ 2` and `agri_hits = 0`
(the blocking condition the claim says must force rejection). -/
theorem claim_C1_cx :
    gate_csv_qa { pesticide := some (str "김치찌개 레시피 재료") } ∅ true false
      ⟨2026, 10, 12⟩ = true ∧
    2 ≤ (analyse (qa_to_text { pesticide := some (str "김치찌개 레시피 재료") })
          ∅ none ⟨2026, 10, 12⟩).non_farm_hits ∧
    (analyse (qa_to_text { pesticide := some (str "김치찌개 레시피 재료") })
      ∅ none ⟨2026, 10, 12⟩).agri_hits = 0 := by
  refine ⟨by decide, by decide, by decide⟩

/-- C1 (amended): in the free-text gate an affirmative semantic signal
accepts exactly when the blocking condition is false, and the blocking
condition rejects despite an affirmative signal; in the CSV gate, however, an
affirmative semantic signal accepts unconditionally once past the memo-only
pre-check, with no blocking condition consulted. -/
theorem claim_C1 :
    (∀ (text : PyStr) (kws : Finset PyStr) (minH minOp nfMin : Nat)
       (dh ch lh : Option PyStr) (now : PyDate),
       nfMin ≤ (analyse text kws dh now).non_farm_hits →
       (analyse text kws dh now).agri_hits = 0 →
       run_with_analysis_decision true minH minOp true nfMin text kws dh ch lh
         now = false) ∧
    (∀ (text : PyStr) (kws : Finset PyStr) (minH minOp nfMin : Nat)
       (dh ch lh : Option PyStr) (now : PyDate),
       ¬(nfMin ≤ (analyse text kws dh now).non_farm_hits ∧
         (analyse text kws dh now).agri_hits = 0) →
       run_with_analysis_decision true minH minOp true nfMin text kws dh ch lh
         now = true) ∧
    (∀ (qa : QAFieldMap) (kws : Finset PyStr) (lenient : Bool) (now : PyDate),
       (truthy qa.memo &&
        !(truthy qa.site || truthy qa.crop || truthy qa.operation ||
          truthy qa.pesticide || truthy qa.fertiliser) &&
        (is_nonfarm_memo_hard (qa.memo.getD []) || is_nonfarm_memo qa.memo))
         = false →
       gate_csv_qa qa kws true lenient now = true) := by
  refine ⟨?_, ?_, ?_⟩
  · intro text kws minH minOp nfMin dh ch lh now h1 h2
    simp only [run_with_analysis_decision]
    have d1 : decide (nfMin ≤ (analyse text kws dh now).non_farm_hits) = true := by
      simp [h1]
    have d2 : decide ((analyse text kws dh now).agri_hits = 0) = true := by
      simp [h2]
    simp [d1, d2]
  · intro text kws minH minOp nfMin dh ch lh now h
    simp only [run_with_analysis_decision]
    have d : (decide (nfMin ≤ (analyse text kws dh now).non_farm_hits) &&
              decide ((analyse text kws dh now).agri_hits = 0)) = false := by
      by_cases h1 : nfMin ≤ (analyse text kws dh now).non_farm_hits
      · have h2 : ¬(analyse text kws dh now).agri_hits = 0 := fun h2 => h ⟨h1, h2⟩
        simp [h2]
      · simp [h1]
    simp [d]
  · intro qa kws lenient now hpre
    simp only [gate_csv_qa]
    rw [hpre]
    simp only [Bool.false_eq_true, if_false]
    by_cases hl : (lenient && (truthy qa.crop || truthy qa.operation)) = true
    · simp [hl]
    · simp only [Bool.not_eq_true] at hl
      rw [hl]
      simp

/-- Witness for C1 (amended) on concrete inputs exercising all three parts. -/
theorem claim_C1_witness :
    run_with_analysis_decision true 1 1 true 2
      (str "김치찌개 레시피 재료 500g") ∅ none none none ⟨2026, 10, 12⟩ = false ∧
    run_with_analysis_decision true 1 1 true 2 (str "배추") ∅ none none none
      ⟨2026, 10, 12⟩ = true ∧
    gate_csv_qa { pesticide := some (str "김치찌개 레시피 재료") } ∅ true false
      ⟨2026, 10, 12⟩ = true :=
  ⟨claim_C1.1 (str "김치찌개 레시피 재료 500g") ∅ 1 1 2 none none none
     ⟨2026, 10, 12⟩ (by decide) (by decide),
   claim_C1.2.1 (str "배추") ∅ 1 1 2 none none none ⟨2026, 10, 12⟩ (by decide),
   claim_C1.2.2 { pesticide := some (str "김치찌개 레시피 재료") } ∅ false
     ⟨2026, 10, 12⟩ (by decide)⟩

/-- Counterexample to C3 as stated: with text "오늘" (today) and a caller
default of "2020-01-01", the code returns the default, not the current
processing date — the default takes precedence over the relative-day words. -/
theorem claim_C3_cx :
    (analyse (str "오늘") ∅ (some (str "2020-01-01")) ⟨2026, 10, 12⟩).date_hint =
      some (str "2020-01-01") ∧
    some (str "2020-01-01") ≠ some (fmtDate 2026 10 12) := by
  refine ⟨by decide, by decide⟩

/-- C3 (amended): when no date pattern matches, a truthy caller-supplied
default date takes precedence; only when the default is absent or empty do
the relative-day words map `date_hint` to the current processing date (and
"yesterday" maps to the current date, not one day earlier). -/
theorem claim_C3 (text : PyStr) (kws : Finset PyStr) (dflt : Option PyStr)
    (now : PyDate)
    (h1 : research DATE_PAT1 (pyStrip text) = none)
    (h2 : research DATE_PAT2 (pyStrip text) = none) :
    (analyse text kws dflt now).date_hint =
      if truthy dflt = true then dflt
      else if pyIn (str "오늘") (pyStrip text) = true then
        some (fmtDate now.year now.month now.day)
      else if pyIn (str "어제") (pyStrip text) = true then
        some (fmtDate now.year now.month now.day)
      else dflt := by
  simp only [analyse]
  simp only [dateHintOf, h1, h2]
  cases ht : truthy dflt with
  | true => simp [ht]
  | false =>
    cases hyo : pyIn (str "오늘") (pyStrip text) <;>
      cases hye : pyIn (str "어제") (pyStrip text) <;>
        simp [ht, hyo, hye]

/-- Witness for C3 (amended): text "오늘", no default. -/
theorem claim_C3_witness :
    (analyse (str "오늘") ∅ none ⟨2026, 10, 12⟩).date_hint =
      some (str "2026-10-12") := by
  rw [claim_C3 (str "오늘") ∅ none ⟨2026, 10, 12⟩ (by decide) (by decide)]
  decide

/-- Counterexample to C7 as stated: `normalize_crop "나무"` returns the empty
string via the first-token fallback, and renormalising the empty string gives
`None`, so idempotence fails. -/
theorem claim_C7_cx :
    normalize_crop (normalize_crop (some (str "나무"))) ≠
      normalize_crop (some (str "나무")) := by
  decide

/-- The crop values producible by the alias and known-crop branches of
`normalize_crop`. -/
def CROP_CANON_OUTPUTS : List PyStr :=
  [str "배추", str "고추", str "사과", str "토마토", str "감자", str "상추",
   str "딸기", str "파프리카", str "오이", str "참외", str "포도", str "복숭아",
   str "감귤"]

/-- C7 (amended): `normalize_crop` is idempotent on every input that resolves
through the alias or known-crop branches (result among the canonical crop
values); the first-whitespace-token fallback can break idempotence (see the
counterexample "나무"). -/
theorem claim_C7 (x : Option PyStr) (v : PyStr)
    (h : normalize_crop x = some v) (hv : v ∈ CROP_CANON_OUTPUTS) :
    normalize_crop (normalize_crop x) = normalize_crop x := by
  rw [h]
  fin_cases hv <;> rfl

/-- Witness for C7 (amended) at the varietal alias "샤인머스켓" → "포도". -/
theorem claim_C7_witness :
    normalize_crop (normalize_crop (some (str "샤인머스켓"))) =
      normalize_crop (some (str "샤인머스켓")) :=
  claim_C7 (some (str "샤인머스켓")) (str "포도") (by decide) (by decide)

/-! ## Dissection lemmas: what a successful match tells us about the string -/

theorem mrun_cls_some {p : Char → Bool} {s : PyStr} {i : Nat} {cs : Caps}
    {k : Nat → Caps → Option (Nat × Caps)} {v : Nat × Caps}
    (h : mrun (.cls p) s i cs k = some v) :
    ∃ c, s.get? i = some c ∧ p c = true ∧ k (i + 1) cs = some v := by
  unfold mrun at h
  cases hg : s.get? i with
  | some c =>
    rw [hg] at h
    dsimp only at h
    cases hpc : p c with
    | true => rw [hpc] at h; rw [if_pos rfl] at h; exact ⟨c, rfl, hpc, h⟩
    | false => rw [hpc] at h; simp at h
  | none => rw [hg] at h; cases h

/-- The leading mandatory character class of a pattern, looking through
sequences and groups. -/
def headCls : RE → Option (Char → Bool)
  | .cls p => some p
  | .seq a _ => headCls a
  | .grp _ a => headCls a
  | _ => none

/-- A successful match of a pattern with a leading mandatory class consumes a
character of that class at the start position. -/
theorem mrun_head_cls :
    ∀ (re : RE) (p : Char → Bool), headCls re = some p →
    ∀ (s : PyStr) (i : Nat) (cs : Caps) (k : Nat → Caps → Option (Nat × Caps))
      (v : Nat × Caps), mrun re s i cs k = some v →
    ∃ c, s.get? i = some c ∧ p c = true ∧
      ∃ j cs2, i + 1 ≤ j ∧ k j cs2 = some v := by
  intro re
  induction re with
  | cls q =>
    intro p hp s i cs k v h
    have hq : q = p := by
      unfold headCls at hp
      injection hp
    subst hq
    obtain ⟨c, hg, hpc, hk⟩ := mrun_cls_some h
    exact ⟨c, hg, hpc, i + 1, cs, Nat.le_refl _, hk⟩
  | seq a b iha ihb =>
    intro p hp s i cs k v h
    unfold mrun at h
    obtain ⟨c, hg, hpc, j1, cs1, hj1, hK⟩ := iha p hp s i cs _ v h
    obtain ⟨j2, cs2, hj2, hk⟩ := mrun_some b s j1 cs1 k v hK
    exact ⟨c, hg, hpc, j2, cs2, Nat.le_trans hj1 hj2, hk⟩
  | grp n a iha =>
    intro p hp s i cs k v h
    unfold mrun at h
    obtain ⟨c, hg, hpc, j, cs2, hj, hK⟩ := iha p hp s i cs _ v h
    exact ⟨c, hg, hpc, j, (n, sliceL s i j) :: cs2, hj, hK⟩
  | eps => intro p hp; exact absurd hp (by simp [headCls])
  | bos => intro p hp; exact absurd hp (by simp [headCls])
  | eos => intro p hp; exact absurd hp (by simp [headCls])
  | wb => intro p hp; exact absurd hp (by simp [headCls])
  | starCls q => intro p hp; exact absurd hp (by simp [headCls])
  | alt a b iha ihb => intro p hp; exact absurd hp (by simp [headCls])
  | opt a iha => intro p hp; exact absurd hp (by simp [headCls])

/-- An ordered alternation of patterns, each with a leading mandatory class
entailing `good`, consumes a `good` character at the start position. -/
theorem mrun_ralts_head (good : Char → Prop) :
    ∀ (L : List RE), L ≠ [] →
    (∀ r ∈ L, ∃ p, headCls r = some p ∧ ∀ c, p c = true → good c) →
    ∀ (s : PyStr) (i : Nat) (cs : Caps) (k : Nat → Caps → Option (Nat × Caps))
      (v : Nat × Caps), mrun (ralts L) s i cs k = some v →
    ∃ c, s.get? i = some c ∧ good c ∧
      ∃ j cs2, i + 1 ≤ j ∧ k j cs2 = some v := by
  intro L
  induction L with
  | nil => intro h; exact absurd rfl h
  | cons r rest ih =>
    intro _ hall s i cs k v h
    cases rest with
    | nil =>
      obtain ⟨p, hp, hps⟩ := hall r (by simp)
      obtain ⟨c, hg, hpc, hrest⟩ := mrun_head_cls r p hp s i cs k v h
      exact ⟨c, hg, hps c hpc, hrest⟩
    | cons r2 rest2 =>
      unfold ralts at h
      unfold mrun at h
      cases hm : mrun r s i cs k with
      | some v1 =>
        rw [hm] at h
        dsimp only at h
        obtain ⟨p, hp, hps⟩ := hall r (by simp)
        obtain ⟨c, hg, hpc, hrest⟩ :=
          mrun_head_cls r p hp s i cs k v (hm.trans h)
        exact ⟨c, hg, hps c hpc, hrest⟩
      | none =>
        rw [hm] at h
        dsimp only at h
        exact ih (by simp) (fun r' hr' => hall r' (by simp [hr'])) s i cs k v h

/-- A successful match of `\d{1,2}` ends one or two characters later, with
digits in between. -/
theorem mrun_rdig12 {s : PyStr} {i : Nat} {cs : Caps}
    {k : Nat → Caps → Option (Nat × Caps)} {v : Nat × Caps}
    (h : mrun rdig12 s i cs k = some v) :
    ∃ j, (j = i + 1 ∨ j = i + 2) ∧ k j cs = some v ∧
      ∀ m, i ≤ m → m < j → ∃ c, s.get? m = some c ∧ isDigitPy c = true := by
  unfold rdig12 at h
  unfold mrun at h
  cases h1 : mrun (.seq rdig rdig) s i cs k with
  | some v1 =>
    rw [h1] at h
    dsimp only at h
    have h1' : mrun (.seq rdig rdig) s i cs k = some v := h1.trans h
    unfold mrun at h1'
    obtain ⟨c1, hg1, hd1, hk1⟩ := mrun_cls_some h1'
    obtain ⟨c2, hg2, hd2, hk2⟩ := mrun_cls_some hk1
    refine ⟨i + 2, Or.inr rfl, hk2, ?_⟩
    intro m hm1 hm2
    have : m = i ∨ m = i + 1 := by omega
    rcases this with rfl | rfl
    · exact ⟨c1, hg1, hd1⟩
    · exact ⟨c2, hg2, hd2⟩
  | none =>
    rw [h1] at h
    dsimp only at h
    obtain ⟨c1, hg1, hd1, hk1⟩ := mrun_cls_some h
    refine ⟨i + 1, Or.inl rfl, hk1, ?_⟩
    intro m hm1 hm2
    have : m = i := by omega
    subst this
    exact ⟨c1, hg1, hd1⟩

/-- A successful match of `\d{4}` ends four characters later, with digits in
between. -/
theorem mrun_rdig4 {s : PyStr} {i : Nat} {cs : Caps}
    {k : Nat → Caps → Option (Nat × Caps)} {v : Nat × Caps}
    (h : mrun rdig4 s i cs k = some v) :
    k (i + 4) cs = some v ∧
      ∀ m, i ≤ m → m < i + 4 → ∃ c, s.get? m = some c ∧ isDigitPy c = true := by
  unfold rdig4 rcats at h
  unfold mrun at h
  obtain ⟨c1, hg1, hd1, hk1⟩ := mrun_cls_some h
  unfold mrun at hk1
  obtain ⟨c2, hg2, hd2, hk2⟩ := mrun_cls_some hk1
  unfold mrun at hk2
  obtain ⟨c3, hg3, hd3, hk3⟩ := mrun_cls_some hk2
  obtain ⟨c4, hg4, hd4, hk4⟩ := mrun_cls_some hk3
  refine ⟨hk4, ?_⟩
  intro m hm1 hm2
  have : m = i ∨ m = i + 1 ∨ m = i + 2 ∨ m = i + 3 := by omega
  rcases this with rfl | rfl | rfl | rfl
  · exact ⟨c1, hg1, hd1⟩
  · exact ⟨c2, hg2, hd2⟩
  · exact ⟨c3, hg3, hd3⟩
  · exact ⟨c4, hg4, hd4⟩

/-- A slice known to consist of digits parses with Python `int`. -/
theorem toNatPy_slice_isSome {s : PyStr} {i j : Nat} (hij : i < j)
    (hd : ∀ m, i ≤ m → m < j → ∃ c, s.get? m = some c ∧ isDigitPy c = true) :
    ∃ n, toNatPy (sliceL s i j) = some n := by
  have hilen : i < s.length := by
    obtain ⟨c, hg, -⟩ := hd i (Nat.le_refl i) hij
    exact (List.get?_eq_some.mp hg).1
  have hlen : (sliceL s i j).length = min (j - i) (s.length - i) := by
    unfold sliceL
    rw [List.length_take, List.length_drop]
  have hne : sliceL s i j ≠ [] := by
    have : 0 < (sliceL s i j).length := by
      rw [hlen]
      omega
    exact List.ne_nil_of_length_pos this
  have hall : (sliceL s i j).all isDigitPy = true := by
    rw [List.all_eq_true]
    intro x hx
    obtain ⟨n, hn⟩ := List.mem_iff_get?.mp hx
    have hnlt : n < (sliceL s i j).length := by
      by_contra hge
      rw [List.get?_eq_none.mpr (Nat.le_of_not_lt hge)] at hn
      cases hn
    have hslice : (sliceL s i j).get? n = s.get? (i + n) := by
      unfold sliceL
      rw [List.get?_take, List.get?_drop]
      rw [hlen] at hnlt
      omega
    rw [hslice] at hn
    obtain ⟨c, hg, hdig⟩ := hd (i + n) (Nat.le_add_right i n)
      (by rw [hlen] at hnlt; omega)
    rw [hg] at hn
    injection hn with he
    rw [he] at hdig
    exact hdig
  unfold toNatPy
  rw [if_pos (by simp [hne, hall])]
  exact ⟨_, rfl⟩

theorem mrun_opt_cases {a : RE} {s : PyStr} {i : Nat} {cs : Caps}
    {k : Nat → Caps → Option (Nat × Caps)} {v : Nat × Caps}
    (h : mrun (.opt a) s i cs k = some v) :
    mrun a s i cs k = some v ∨ k i cs = some v := by
  unfold mrun at h
  cases hx : mrun a s i cs k with
  | some r => rw [hx] at h; dsimp only at h; exact Or.inl h
  | none => rw [hx] at h; dsimp only at h; exact Or.inr h

/-- The format of a date never yields the empty string. -/
theorem fmtDate_ne_nil (y mo d : Nat) : fmtDate y mo d ≠ [] := by
  unfold fmtDate
  intro hEq
  simp [str, List.append_eq_nil] at hEq

/-- A formatted date is truthy. -/
theorem truthy_fmtDate (y mo d : Nat) : truthy (some (fmtDate y mo d)) = true := by
  simp [truthy, List.isEmpty_eq_false, fmtDate_ne_nil]

/-- A successful structural match of the second date pattern always yields
two digit groups whose numeric parses succeed — there is no range
validation. -/
theorem date2_dissect {t : PyStr} {i j : Nat} {caps : Caps}
    (h : mrunTop DATE_PAT2 t i = some (j, caps)) :
    ∃ g1 g2 n1 n2, capLookup caps 1 = some g1 ∧ capLookup caps 2 = some g2 ∧
      toNatPy g1 = some n1 ∧ toNatPy g2 = some n2 := by
  have step1 : mrun rdig12 t i []
      (fun j2 cs2 =>
        mrun (.seq (rset ".-/월") (.seq rwsOpt (.seq (.grp 2 rdig12) (rch '일'))))
          t j2 ((1, sliceL t i j2) :: cs2)
          (fun j3 cs3 => some (j3, cs3))) = some (j, caps) := h
  obtain ⟨j1, hj1, hk1, hdig1⟩ := mrun_rdig12 step1
  have step2 : mrun (.cls (fun x => (".-/월").data.contains x)) t j1
      [(1, sliceL t i j1)]
      (fun j2 cs2 =>
        mrun (.seq rwsOpt (.seq (.grp 2 rdig12) (rch '일'))) t j2 cs2
          (fun j3 cs3 => some (j3, cs3))) = some (j, caps) := hk1
  obtain ⟨csep, hgsep, hcsep, hk2⟩ := mrun_cls_some step2
  have step3 : mrun (.opt (.cls isSpacePy)) t (j1 + 1) [(1, sliceL t i j1)]
      (fun j2 cs2 =>
        mrun (.seq (.grp 2 rdig12) (rch '일')) t j2 cs2
          (fun j3 cs3 => some (j3, cs3))) = some (j, caps) := hk2
  obtain ⟨j2, hk3⟩ : ∃ j2,
      mrun (.seq (.grp 2 rdig12) (rch '일')) t j2 [(1, sliceL t i j1)]
        (fun j3 cs3 => some (j3, cs3)) = some (j, caps) := by
    rcases mrun_opt_cases step3 with hsp | hsp
    · obtain ⟨cws, hgws, hws, hk3⟩ := mrun_cls_some hsp
      exact ⟨j1 + 2, hk3⟩
    · exact ⟨j1 + 1, hsp⟩
  have step4 : mrun rdig12 t j2 [(1, sliceL t i j1)]
      (fun j4 cs4 =>
        mrun (rch '일') t j4 ((2, sliceL t j2 j4) :: cs4)
          (fun j3 cs3 => some (j3, cs3))) = some (j, caps) := hk3
  obtain ⟨j3, hj3, hk4, hdig2⟩ := mrun_rdig12 step4
  obtain ⟨cil, hgil, hcil, hk5⟩ := mrun_cls_some hk4
  have hcaps : caps = [(2, sliceL t j2 j3), (1, sliceL t i j1)] := by
    have := hk5
    injection this with h1'
    injection h1' with h2' h3'
    exact h3'.symm
  obtain ⟨n1, hn1⟩ := toNatPy_slice_isSome (by omega : i < j1) hdig1
  obtain ⟨n2, hn2⟩ := toNatPy_slice_isSome (by omega : j2 < j3) hdig2
  subst hcaps
  exact ⟨sliceL t i j1, sliceL t j2 j3, n1, n2, rfl, rfl, hn1, hn2⟩

/-- A successful structural match of the first date pattern always yields
three digit groups whose numeric parses succeed. -/
theorem date1_dissect {t : PyStr} {i j : Nat} {caps : Caps}
    (h : mrunTop DATE_PAT1 t i = some (j, caps)) :
    ∃ g1 g2 g3 n1 n2 n3, capLookup caps 1 = some g1 ∧
      capLookup caps 2 = some g2 ∧ capLookup caps 3 = some g3 ∧
      toNatPy g1 = some n1 ∧ toNatPy g2 = some n2 ∧ toNatPy g3 = some n3 := by
  have step1 : mrun rdig4 t i []
      (fun j2 cs2 =>
        mrun (.seq (rset ".-/년") (.seq rwsOpt (.seq (.grp 2 rdig12)
          (.seq (rset ".-/월") (.seq rwsOpt (.seq (.grp 3 rdig12)
            (.opt (rch '일'))))))))
          t j2 ((1, sliceL t i j2) :: cs2)
          (fun j3 cs3 => some (j3, cs3))) = some (j, caps) := h
  obtain ⟨hk1, hdig1⟩ := mrun_rdig4 step1
  have step2 : mrun (.cls (fun x => (".-/년").data.contains x)) t (i + 4)
      [(1, sliceL t i (i + 4))]
      (fun j2 cs2 =>
        mrun (.seq rwsOpt (.seq (.grp 2 rdig12)
          (.seq (rset ".-/월") (.seq rwsOpt (.seq (.grp 3 rdig12)
            (.opt (rch '일'))))))) t j2 cs2
          (fun j3 cs3 => some (j3, cs3))) = some (j, caps) := hk1
  obtain ⟨csep, hgsep, hcsep, hk2⟩ := mrun_cls_some step2
  have step3 : mrun (.opt (.cls isSpacePy)) t (i + 4 + 1)
      [(1, sliceL t i (i + 4))]
      (fun j2 cs2 =>
        mrun (.seq (.grp 2 rdig12)
          (.seq (rset ".-/월") (.seq rwsOpt (.seq (.grp 3 rdig12)
            (.opt (rch '일')))))) t j2 cs2
          (fun j3 cs3 => some (j3, cs3))) = some (j, caps) := hk2
  obtain ⟨j2, hk3⟩ : ∃ j2,
      mrun (.seq (.grp 2 rdig12)
        (.seq (rset ".-/월") (.seq rwsOpt (.seq (.grp 3 rdig12)
          (.opt (rch '일')))))) t j2 [(1, sliceL t i (i + 4))]
        (fun j3 cs3 => some (j3, cs3)) = some (j, caps) := by
    rcases mrun_opt_cases step3 with hsp | hsp
    · obtain ⟨cws, hgws, hws, hk3⟩ := mrun_cls_some hsp
      exact ⟨i + 4 + 2, hk3⟩
    · exact ⟨i + 4 + 1, hsp⟩
  have step4 : mrun rdig12 t j2 [(1, sliceL t i (i + 4))]
      (fun j4 cs4 =>
        mrun (.seq (rset ".-/월") (.seq rwsOpt (.seq (.grp 3 rdig12)
          (.opt (rch '일'))))) t j4 ((2, sliceL t j2 j4) :: cs4)
          (fun j3 cs3 => some (j3, cs3))) = some (j, caps) := hk3
  obtain ⟨j3, hj3, hk4, hdig2⟩ := mrun_rdig12 step4
  have step5 : mrun (.cls (fun x => (".-/월").data.contains x)) t j3
      [(2, sliceL t j2 j3), (1, sliceL t i (i + 4))]
      (fun j4 cs4 =>
        mrun (.seq rwsOpt (.seq (.grp 3 rdig12) (.opt (rch '일')))) t j4 cs4
          (fun j5 cs5 => some (j5, cs5))) = some (j, caps) := hk4
  obtain ⟨csep2, hgsep2, hcsep2, hk5⟩ := mrun_cls_some step5
  have step6 : mrun (.opt (.cls isSpacePy)) t (j3 + 1)
      [(2, sliceL t j2 j3), (1, sliceL t i (i + 4))]
      (fun j4 cs4 =>
        mrun (.seq (.grp 3 rdig12) (.opt (rch '일'))) t j4 cs4
          (fun j5 cs5 => some (j5, cs5))) = some (j, caps) := hk5
  obtain ⟨j4, hk6⟩ : ∃ j4,
      mrun (.seq (.grp 3 rdig12) (.opt (rch '일'))) t j4
        [(2, sliceL t j2 j3), (1, sliceL t i (i + 4))]
        (fun j5 cs5 => some (j5, cs5)) = some (j, caps) := by
    rcases mrun_opt_cases step6 with hsp | hsp
    · obtain ⟨cws, hgws, hws, hk6⟩ := mrun_cls_some hsp
      exact ⟨j3 + 2, hk6⟩
    · exact ⟨j3 + 1, hsp⟩
  have step7 : mrun rdig12 t j4
      [(2, sliceL t j2 j3), (1, sliceL t i (i + 4))]
      (fun j6 cs6 =>
        mrun (.opt (rch '일')) t j6 ((3, sliceL t j4 j6) :: cs6)
          (fun j5 cs5 => some (j5, cs5))) = some (j, caps) := hk6
  obtain ⟨j5, hj5, hk7, hdig3⟩ := mrun_rdig12 step7
  have hcaps : caps =
      [(3, sliceL t j4 j5), (2, sliceL t j2 j3), (1, sliceL t i (i + 4))] := by
    rcases mrun_opt_cases hk7 with hsp | hsp
    · obtain ⟨cil, hgil, hcil, hk8⟩ := mrun_cls_some hsp
      injection hk8 with h1'
      injection h1' with h2' h3'
      exact h3'.symm
    · injection hsp with h1'
      injection h1' with h2' h3'
      exact h3'.symm
  obtain ⟨n1, hn1⟩ := toNatPy_slice_isSome (by omega : i < i + 4) hdig1
  obtain ⟨n2, hn2⟩ := toNatPy_slice_isSome (by omega : j2 < j3) hdig2
  obtain ⟨n3, hn3⟩ := toNatPy_slice_isSome (by omega : j4 < j5) hdig3
  subst hcaps
  exact ⟨sliceL t i (i + 4), sliceL t j2 j3, sliceL t j4 j5, n1, n2, n3,
    rfl, rfl, rfl, hn1, hn2, hn3⟩

/-- Counterexample to C9 as stated: on "13월 45일" the second date pattern
matches structurally, the numeric parse of the invalid month and day
nevertheless succeeds, and the match is NOT discarded — `date_hint` becomes
"2026-13-45" instead of falling through to the relative-day/default tiers
(which would leave it `None`). -/
theorem claim_C9_cx :
    (analyse (str "13월 45일") ∅ none ⟨2026, 10, 12⟩).date_hint =
      some (str "2026-13-45") ∧
    some (str "2026-13-45") ≠ (none : Option PyStr) := by
  refine ⟨by decide, by decide⟩

/-- C9 (amended): once a date pattern structurally matches, its digit groups
always parse (there is no month/day range validation), the formatted value —
even an out-of-range one — becomes `date_hint`, and neither the later
pattern nor the relative-day/default fallback tiers are consulted; the first
pattern wins when both match. -/
theorem claim_C9 :
    (∀ (text : PyStr) (kws : Finset PyStr) (dflt : Option PyStr) (now : PyDate)
       (i j : Nat) (caps : Caps),
       research DATE_PAT1 (pyStrip text) = none →
       research DATE_PAT2 (pyStrip text) = some (i, j, caps) →
       ∃ g1 g2 mo d, capLookup caps 1 = some g1 ∧ capLookup caps 2 = some g2 ∧
         toNatPy g1 = some mo ∧ toNatPy g2 = some d ∧
         (analyse text kws dflt now).date_hint =
           some (fmtDate now.year mo d)) ∧
    (∀ (text : PyStr) (kws : Finset PyStr) (dflt : Option PyStr) (now : PyDate)
       (i j : Nat) (caps : Caps),
       research DATE_PAT1 (pyStrip text) = some (i, j, caps) →
       ∃ g1 g2 g3 y mo d, capLookup caps 1 = some g1 ∧
         capLookup caps 2 = some g2 ∧ capLookup caps 3 = some g3 ∧
         toNatPy g1 = some y ∧ toNatPy g2 = some mo ∧ toNatPy g3 = some d ∧
         (analyse text kws dflt now).date_hint = some (fmtDate y mo d)) := by
  constructor
  · intro text kws dflt now i j caps h1 h2
    have hm : mrunTop DATE_PAT2 (pyStrip text) i = some (j, caps) :=
      (researchGo_some (pyStrip text) 0 i j caps h2).2
    obtain ⟨g1, g2, mo, d, hg1, hg2, hmo, hd⟩ := date2_dissect hm
    refine ⟨g1, g2, mo, d, hg1, hg2, hmo, hd, ?_⟩
    simp only [analyse]
    simp only [dateHintOf, h1, h2, hg1, hg2, hmo, hd]
    rw [truthy_fmtDate]
    simp
  · intro text kws dflt now i j caps h1
    have hm : mrunTop DATE_PAT1 (pyStrip text) i = some (j, caps) :=
      (researchGo_some (pyStrip text) 0 i j caps h1).2
    obtain ⟨g1, g2, g3, y, mo, d, hg1, hg2, hg3, hy, hmo, hd⟩ :=
      date1_dissect hm
    refine ⟨g1, g2, g3, y, mo, d, hg1, hg2, hg3, hy, hmo, hd, ?_⟩
    simp only [analyse]
    simp only [dateHintOf, h1, hg1, hg2, hg3, hy, hmo, hd]
    rw [truthy_fmtDate]
    simp

/-- Witness for C9 (amended) on "13월 45일" and "2024년 9월 22일". -/
theorem claim_C9_witness :
    (∃ g1 g2 mo d,
      capLookup [(2, str "45"), (1, str "13")] 1 = some g1 ∧
      capLookup [(2, str "45"), (1, str "13")] 2 = some g2 ∧
      toNatPy g1 = some mo ∧ toNatPy g2 = some d ∧
      (analyse (str "13월 45일") ∅ none ⟨2026, 10, 12⟩).date_hint =
        some (fmtDate 2026 mo d)) ∧
    (∃ g1 g2 g3 y mo d,
      capLookup [(3, str "22"), (2, str "9"), (1, str "2024")] 1 = some g1 ∧
      capLookup [(3, str "22"), (2, str "9"), (1, str "2024")] 2 = some g2 ∧
      capLookup [(3, str "22"), (2, str "9"), (1, str "2024")] 3 = some g3 ∧
      toNatPy g1 = some y ∧ toNatPy g2 = some mo ∧ toNatPy g3 = some d ∧
      (analyse (str "2024년 9월 22일") ∅ none ⟨2026, 10, 12⟩).date_hint =
        some (fmtDate y mo d)) :=
  ⟨claim_C9.1 (str "13월 45일") ∅ none ⟨2026, 10, 12⟩ 0 7
     [(2, str "45"), (1, str "13")] (by decide) (by decide),
   claim_C9.2 (str "2024년 9월 22일") ∅ none ⟨2026, 10, 12⟩ 0 12
     [(3, str "22"), (2, str "9"), (1, str "2024")] (by decide)⟩

/-! ## Non-empty-value lemmas for the field normalisers and the CSV parser -/

theorem orNone_ne_some_nil (u : PyStr) : orNone u ≠ some [] := by
  unfold orNone
  split
  · simp
  · next hcond =>
    intro h
    injection h with he
    rw [he] at hcond
    exact hcond rfl

theorem blankToNone_ne_some_nil (v : Option PyStr) : blankToNone v ≠ some [] := by
  cases v with
  | none => simp [blankToNone]
  | some w =>
    simp only [blankToNone]
    split
    · simp
    · next hcond =>
      intro h
      injection h with he
      rw [he] at hcond
      exact hcond rfl

/-- A slice whose start position holds a character begins with it. -/
theorem sliceL_cons {u : PyStr} {i j : Nat} {c : Char}
    (hg : u.get? i = some c) (hij : i < j) :
    sliceL u i j = c :: sliceL u (i + 1) j := by
  unfold sliceL
  obtain ⟨hlt, hGet⟩ := List.get?_eq_some.mp hg
  rw [List.drop_eq_get_cons hlt, hGet]
  have hsub : j - i = (j - (i + 1)) + 1 := by omega
  rw [hsub, List.take_succ_cons]

/-- Double-space replacement keeps a non-space head character in place. -/
theorem repl2_cons_ne {x : Char} (hx : x ≠ ' ') (l : PyStr) :
    ∃ L, repl2 ' ' ' ' (str " ") (x :: l) = x :: L := by
  cases l with
  | nil => exact ⟨[], rfl⟩
  | cons y rest =>
    unfold repl2
    rw [if_neg (by simp [hx])]
    exact ⟨_, rfl⟩

/-- Any successful match of the structured-location pattern captures a group
whose space-stripped value is non-empty. -/
theorem site_group_filter_ne {u : PyStr} {i j : Nat} {caps : Caps}
    (h : research SITE_PAT u = some (i, j, caps)) :
    ∃ g, capLookup caps 1 = some g ∧ g.filter (fun c => c ≠ ' ') ≠ [] := by
  have hm : mrunTop SITE_PAT u i = some (j, caps) :=
    (researchGo_some u 0 i j caps h).2
  have h1 : mrun (ralts SITE_ALTS) u i []
      (fun j2 cs2 => some (j2, (1, sliceL u i j2) :: cs2)) = some (j, caps) := hm
  obtain ⟨c, hg, hcne, j2, cs2, hj2, hk⟩ :=
    mrun_ralts_head (fun c => c ≠ ' ') SITE_ALTS (by simp [SITE_ALTS])
      (by
        intro r hr
        fin_cases hr <;>
          exact ⟨_, rfl, fun c hc he => by
            rw [he] at hc
            exact absurd hc (by decide)⟩)
      u i [] _ _ h1
  have hk' : some (j2, (1, sliceL u i j2) :: cs2) = some (j, caps) := hk
  injection hk' with he
  have hcaps : caps = (1, sliceL u i j2) :: cs2 := (congrArg Prod.snd he).symm
  refine ⟨sliceL u i j2, ?_, ?_⟩
  · rw [hcaps]
    rfl
  · rw [sliceL_cons hg (by omega), List.filter_cons, if_pos (by simp [hcne])]
    simp

/-- Any successful match of the regional-location pattern starts with a
non-whitespace character and is non-empty. -/
theorem korloc_head {u : PyStr} {i j : Nat} {caps : Caps}
    (h : research KOR_LOC_RE u = some (i, j, caps)) :
    ∃ c, u.get? i = some c ∧ isSpacePy c = false ∧ i + 1 ≤ j := by
  have hm : mrunTop KOR_LOC_RE u i = some (j, caps) :=
    (researchGo_some u 0 i j caps h).2
  have h1 : mrun (ralts REGIONS) u i []
      (fun j2 cs2 =>
        mrun KORLOC_TAIL u j2 ((1, sliceL u i j2) :: cs2)
          (fun j3 cs3 => some (j3, cs3))) = some (j, caps) := hm
  obtain ⟨c, hg, hcns, j2, cs2, hj2, hk⟩ :=
    mrun_ralts_head (fun c => isSpacePy c = false) REGIONS (by simp [REGIONS])
      (by
        intro r hr
        fin_cases hr <;>
          exact ⟨_, rfl, fun c hc => by
            have hce := of_decide_eq_true hc
            rw [hce]
            decide⟩)
      u i [] _ _ h1
  obtain ⟨j3, cs3, hj3, hktop⟩ := mrun_some KORLOC_TAIL u j2 _ _ _ hk
  have hktop' : some ((j3 : Nat), cs3) = some (j, caps) := hktop
  injection hktop' with he
  have hjj : j3 = j := congrArg Prod.fst he
  exact ⟨c, hg, hcns, by omega⟩

theorem normalize_site_ne_some_nil (s : Option PyStr) :
    normalize_site s ≠ some [] := by
  cases s with
  | none => simp [normalize_site]
  | some t =>
    by_cases hT : t.isEmpty
    · simp [normalize_site, hT]
    · simp only [normalize_site, hT, Bool.false_eq_true, if_false]
      cases hres : research SITE_PAT
          (strip_tail_speech (collapse_commas_spaces
            (drop_front_interjection t))) with
      | some v =>
        obtain ⟨i, j, caps⟩ := v
        obtain ⟨g, hg, hne⟩ := site_group_filter_ne hres
        dsimp only
        rw [hg]
        intro hEq
        injection hEq with he
        exact hne he
      | none =>
        dsimp only
        cases hres2 : research KOR_LOC_RE
            (strip_tail_speech (collapse_commas_spaces
              (drop_front_interjection t))) with
        | some v =>
          obtain ⟨i, j, caps⟩ := v
          obtain ⟨c, hgc, hcns, hij⟩ := korloc_head hres2
          dsimp only
          rw [sliceL_cons hgc (by omega)]
          have hcne : c ≠ ' ' := fun he => by
            rw [he] at hcns
            exact absurd hcns (by decide)
          obtain ⟨L, hL⟩ := repl2_cons_ne hcne (sliceL _ (i + 1) j)
          rw [hL]
          obtain ⟨T, hT2⟩ := pyStrip_keepFront [c] ⟨c, [], rfl, hcns⟩
            ⟨c, [], rfl, hcns⟩ L
          rw [show (c :: L) = [c] ++ L from rfl, hT2]
          simp
        | none =>
          dsimp only
          exact orNone_ne_some_nil _

theorem canon_op_free_ne_some_nil (answer : PyStr) :
    canon_op_free answer ≠ some [] := by
  have hkeys : ∀ x ∈ OP_CANON, x.1 ≠ [] := by decide
  simp only [canon_op_free]
  split
  · next e heq =>
    have hmem := List.mem_of_find?_eq_some heq
    intro h
    injection h with he
    exact hkeys e hmem he
  · split
    · next e heq =>
      have hmem := List.mem_of_find?_eq_some heq
      intro h
      injection h with he
      exact hkeys e hmem he
    · exact orNone_ne_some_nil _

theorem normalize_operation_ne_some_nil (s : Option PyStr) :
    normalize_operation s ≠ some [] := by
  cases s with
  | none => simp [normalize_operation]
  | some t =>
    by_cases hT : t.isEmpty
    · simp [normalize_operation, hT]
    · simp only [normalize_operation, hT, Bool.false_eq_true, if_false]
      split
      · simp [str]
      · split
        · simp [str]
        · split
          · simp [str]
          · split
            · simp [str]
            · split
              · simp [str]
              · split
                · simp [str]
                · exact canon_op_free_ne_some_nil _

theorem normalize_agri_input_ne_some_nil (s : Option PyStr) :
    normalize_agri_input s ≠ some [] := by
  cases s with
  | none => simp [normalize_agri_input]
  | some t =>
    by_cases hT : t.isEmpty
    · simp [normalize_agri_input, hT]
    · simp only [normalize_agri_input, hT, Bool.false_eq_true, if_false]
      unfold nai_core nai_check
      split
      · simp
      · split
        · simp
        · split
          · simp
          · exact orNone_ne_some_nil _

theorem read_qa_ne_some_nil (content : PyStr) (f : Field) :
    (read_qa_csv_text content).get f ≠ some [] := by
  simp only [read_qa_csv_text]
  cases f <;> (dsimp only [QAFieldMap.get]; exact blankToNone_ne_some_nil _)

/-- Counterexample to C6 as stated: `normalize_crop "나무"` produces the
empty string (the trailing "-tree" strip empties the string and the fallback
returns it unchanged). -/
theorem claim_C6_cx :
    normalize_crop (some (str "나무")) = some [] ∧ some ([] : PyStr) ≠ none := by
  refine ⟨by decide, by decide⟩

/-- C6 (amended): `normalize_site`, `normalize_operation`,
`normalize_agri_input` and the CSV parser never produce an empty string as a
field value, and `None`/empty input yields `None` for every normaliser;
`normalize_crop`, however, can return the empty string (see the
counterexample "나무"). -/
theorem claim_C6 :
    (∀ s, normalize_site s ≠ some []) ∧
    (∀ s, normalize_operation s ≠ some []) ∧
    (∀ s, normalize_agri_input s ≠ some []) ∧
    (∀ (content : PyStr) (f : Field),
      (read_qa_csv_text content).get f ≠ some []) ∧
    (normalize_site none = none ∧ normalize_crop none = none ∧
     normalize_operation none = none ∧ normalize_agri_input none = none ∧
     normalize_site (some []) = none ∧ normalize_crop (some []) = none ∧
     normalize_operation (some []) = none ∧
     normalize_agri_input (some []) = none) :=
  ⟨normalize_site_ne_some_nil, normalize_operation_ne_some_nil,
   normalize_agri_input_ne_some_nil, read_qa_ne_some_nil,
   by decide, by decide, by decide, by decide, by decide, by decide,
   by decide, by decide⟩

/-! ### C4: the CSV round-trip through the `" / "`-joined rendering -/

theorem foldl_fix {α β : Type} (f : α → β → α) (hf : ∀ a x, f a x = a) :
    ∀ (l : List β) (a : α), List.foldl f a l = a := by
  intro l
  induction l with
  | nil => intro a; rfl
  | cons x t ih => intro a; rw [List.foldl_cons, hf]; exact ih a

theorem parse_alias_row_nil_vals (header : List PyStr) :
    parse_alias_row header [] = emptyQA := by
  unfold parse_alias_row
  refine foldl_fix _ ?_ FIELD_ALIASES emptyQA
  intro acc e
  refine foldl_fix _ ?_ e.2 acc
  intro acc2 al
  cases lastIdxOf header al with
  | none => rfl
  | some idx => cases idx <;> rfl

theorem splitCh_no_sep (sep : Char) :
    ∀ (s : PyStr), sep ∉ s → splitCh sep s = [s] := by
  intro s
  induction s with
  | nil => intro _; rfl
  | cons c rest ih =>
    intro h
    have hc : ¬ c = sep := by
      intro he
      exact h (by rw [he]; exact List.mem_cons_self sep rest)
    have hr := ih (fun hm => h (List.mem_cons_of_mem c hm))
    simp only [splitCh]
    rw [if_neg hc, hr]

theorem normNL_id : ∀ (s : PyStr), '\r' ∉ s → normNL s = s := by
  intro s
  induction s with
  | nil => intro _; rfl
  | cons c rest ih =>
    intro h
    have hc : ¬ c = '\r' := by
      intro he
      exact h (by rw [he]; exact List.mem_cons_self _ _)
    have hr := ih (fun hm => h (List.mem_cons_of_mem c hm))
    rw [normNL.eq_def]
    dsimp only
    rw [if_neg hc, hr]

theorem splitLinesPy_no_term (s : PyStr) (hr : '\r' ∉ s) (hn : '\n' ∉ s) :
    splitLinesPy s = [s] := by
  unfold splitLinesPy
  rw [normNL_id s hr]
  exact splitCh_no_sep '\n' s hn

theorem mem_joinSep {c : Char} (sep : PyStr) :
    ∀ (l : List PyStr), c ∈ joinSep sep l → c ∈ sep ∨ ∃ x ∈ l, c ∈ x := by
  intro l
  induction l with
  | nil => intro h; cases h
  | cons x rest ih =>
    cases rest with
    | nil =>
      intro h
      exact Or.inr ⟨x, List.mem_cons_self x [], h⟩
    | cons y t =>
      intro h
      have h2 : c ∈ x ++ sep ++ joinSep sep (y :: t) := h
      rcases List.mem_append.mp h2 with h3 | h3
      · rcases List.mem_append.mp h3 with h4 | h4
        · exact Or.inr ⟨x, List.mem_cons_self x (y :: t), h4⟩
        · exact Or.inl h4
      · rcases ih h3 with h4 | ⟨z, hz, hzc⟩
        · exact Or.inl h4
        · exact Or.inr ⟨z, List.mem_cons_of_mem x hz, hzc⟩

theorem joinSep_cons_front (sep x : PyStr) (rest : List PyStr) :
    ∃ T, joinSep sep (x :: rest) = x ++ T := by
  cases rest with
  | nil => exact ⟨[], (List.append_nil x).symm⟩
  | cons y t =>
    refine ⟨sep ++ joinSep sep (y :: t), ?_⟩
    show x ++ sep ++ joinSep sep (y :: t) = x ++ (sep ++ joinSep sep (y :: t))
    rw [List.append_assoc]

theorem qa_pairs_cons (qa : QAFieldMap) (f : Field) (fs : List Field) :
    qa_pairs qa (f :: fs) =
      (match qa.get f with
       | some v => if v.isEmpty then qa_pairs qa fs
           else (field_label f ++ str ": " ++ v) :: qa_pairs qa fs
       | none => qa_pairs qa fs) := rfl

theorem qa_pairs_mem (qa : QAFieldMap) :
    ∀ (fields : List Field) (x : PyStr), x ∈ qa_pairs qa fields →
      ∃ f, f ∈ fields ∧ ∃ v, qa.get f = some v ∧
        x = (field_label f ++ str ": ") ++ v := by
  intro fields
  induction fields with
  | nil => intro x hx; simp [qa_pairs] at hx
  | cons f fs ih =>
    intro x hx
    rw [qa_pairs_cons] at hx
    cases hg : qa.get f with
    | none =>
      simp only [hg] at hx
      obtain ⟨g, hgm, hv⟩ := ih x hx
      exact ⟨g, List.mem_cons_of_mem f hgm, hv⟩
    | some v =>
      simp only [hg] at hx
      by_cases he : v.isEmpty = true
      · rw [if_pos he] at hx
        obtain ⟨g, hgm, hv⟩ := ih x hx
        exact ⟨g, List.mem_cons_of_mem f hgm, hv⟩
      · rw [if_neg he] at hx
        rcases List.mem_cons.mp hx with hx1 | hx2
        · exact ⟨f, List.mem_cons_self f fs, v, hg, hx1⟩
        · obtain ⟨g, hgm, hv⟩ := ih x hx2
          exact ⟨g, List.mem_cons_of_mem f hgm, hv⟩

theorem mem_dropWhile_of {p : Char → Bool} {c : Char} (hc : p c = false)
    {s : PyStr} (hm : c ∈ s) : c ∈ s.dropWhile p := by
  have h2 : c ∈ s.takeWhile p ++ s.dropWhile p := by
    rw [List.takeWhile_append_dropWhile]; exact hm
  rcases List.mem_append.mp h2 with h3 | h3
  · exact absurd (List.mem_takeWhile_imp h3) (by simp [hc])
  · exact h3

theorem mem_rdropWhileB_of {p : Char → Bool} {c : Char} (hc : p c = false)
    {s : PyStr} (hm : c ∈ s) : c ∈ rdropWhileB p s := by
  unfold rdropWhileB
  rw [List.mem_reverse]
  exact mem_dropWhile_of hc (List.mem_reverse.mpr hm)

theorem mem_pyStrip {c : Char} (hc : isSpacePy c = false) {s : PyStr}
    (hm : c ∈ s) : c ∈ pyStrip s := by
  unfold pyStrip
  exact mem_rdropWhileB_of hc (mem_dropWhile_of hc hm)

theorem pyStrip_not_empty {c : Char} (hc : isSpacePy c = false) {s : PyStr}
    (hm : c ∈ s) : (pyStrip s).isEmpty = false := by
  have h := mem_pyStrip hc hm
  cases hE : pyStrip s with
  | nil => rw [hE] at h; cases h
  | cons a t => rfl

theorem takeWhile_append_all (p : Char → Bool) :
    ∀ (A B : PyStr), (∀ c ∈ A, p c = true) →
      (A ++ B).takeWhile p = A ++ B.takeWhile p := by
  intro A
  induction A with
  | nil => intro B _; simp
  | cons a A' ih =>
    intro B hA
    have ha : p a = true := hA a (List.mem_cons_self a A')
    simp [List.takeWhile_cons, ha, ih B (fun c hc => hA c (List.mem_cons_of_mem a hc))]

theorem canon_field_colon {label : PyStr} (h : ':' ∈ label) :
    canon_field label = none := by
  have hko : ∀ e ∈ FIELD_ALIASES, ∀ a ∈ e.2, ¬ ':' ∈ a := by decide
  have hen : ∀ e ∈ ENG_FIELD_WORDS, ∀ a ∈ e.2, ¬ ':' ∈ a := by decide
  have hs : ':' ∈ pyStrip label := mem_pyStrip (by decide) h
  have hlow : ':' ∈ pyLower (pyStrip label) := by
    have h2 : lowerCh ':' ∈ (pyStrip label).map lowerCh :=
      List.mem_map_of_mem lowerCh hs
    exact h2
  have h1 : FIELD_ALIASES.find? (fun e => e.2.any (fun a => a = pyStrip label)) = none := by
    rw [List.find?_eq_none]
    intro e he hp
    simp only [List.any_eq_true, decide_eq_true_eq] at hp
    obtain ⟨a, ha, hae⟩ := hp
    exact hko e he a ha (by rw [hae]; exact hs)
  have h2 : ENG_FIELD_WORDS.find?
      (fun e => e.2.any (fun a => a = pyLower (pyStrip label))) = none := by
    rw [List.find?_eq_none]
    intro e he hp
    simp only [List.any_eq_true, decide_eq_true_eq] at hp
    obtain ⟨a, ha, hae⟩ := hp
    exact hen e he a ha (by rw [hae]; exact hlow)
  simp only [canon_field]
  rw [h1, h2]

theorem parse_lines_single_colon (M : PyStr)
    (hc : ∃ A B, M = A ++ ':' :: B ∧ ∀ c ∈ A, ¬ c = ',') :
    parse_lines [M] = emptyQA := by
  obtain ⟨A, B, rfl, hA⟩ := hc
  simp only [parse_lines]
  split
  · rfl
  · split
    · exact parse_alias_row_nil_vals _
    · unfold parse_label_lines
      rw [List.foldl_cons, List.foldl_nil]
      by_cases hcom : (A ++ ':' :: B).contains ',' = true
      · rw [if_pos hcom]
        have hmem : ':' ∈ (A ++ ':' :: B).takeWhile (fun c => c ≠ ',') := by
          rw [takeWhile_append_all (fun c => c ≠ ',') A (':' :: B)
            (fun c hc2 => decide_eq_true (hA c hc2))]
          refine List.mem_append_right A ?_
          rw [show (':' :: B).takeWhile (fun c => c ≠ ',') =
            ':' :: B.takeWhile (fun c => c ≠ ',') from rfl]
          exact List.mem_cons_self _ _
        rw [canon_field_colon hmem]
      · rw [if_neg hcom]

/-- Counterexample to C4 as stated: the `" / "`-joined rendering of the field
map `{site: 포장2, crop: 사과}` is a single CSV line with no recognised
header, whose labels all carry an embedded `": "`, so the parser returns the
empty field map instead of the original one. -/
theorem claim_C4_cx :
    read_qa_csv_text (qa_to_text
        { site := some (str "포장2"), crop := some (str "사과") }) ≠
      { site := some (str "포장2"), crop := some (str "사과") } := by decide

/-- C4 (amended): the CSV record parser applied to the canonical `" / "`-joined
`label: value` rendering of a field map recovers nothing at all - it returns
the empty field map whenever no field value contains a newline or carriage
return - so the claimed round-trip holds only for field maps with no populated
field. -/
theorem claim_C4 (qa : QAFieldMap)
    (h : ∀ f ∈ [Field.site, Field.crop, Field.operation, Field.pesticide,
                Field.fertiliser, Field.memo],
      (qa.get f).all (fun v => !(v.contains '\n' || v.contains '\r')) = true) :
    read_qa_csv_text (qa_to_text qa) = emptyQA := by
  cases hq : qa_pairs qa [Field.site, Field.crop, Field.operation,
      Field.pesticide, Field.fertiliser, Field.memo] with
  | nil =>
    have hz : qa_to_text qa = [] := by
      simp only [qa_to_text]
      rw [hq]
      rfl
    rw [hz]
    decide
  | cons x rest =>
    have hpair : ∀ y ∈ x :: rest,
        (∃ f v, y = (field_label f ++ str ": ") ++ v) ∧ '\n' ∉ y ∧ '\r' ∉ y := by
      intro y hy
      rw [← hq] at hy
      obtain ⟨f, hf, v, hget, hyv⟩ := qa_pairs_mem qa _ y hy
      have h3 : (v.contains '\n' || v.contains '\r') = false := by
        have h2 : ((qa.get f).all
            (fun w => !(w.contains '\n' || w.contains '\r'))) = true := h f hf
        rw [hget] at h2
        have h2b : (!(v.contains '\n' || v.contains '\r')) = true := h2
        rw [Bool.not_eq_true'] at h2b
        exact h2b
      have hvn : v.contains '\n' = false := by
        cases hcn : v.contains '\n'
        · rfl
        · rw [hcn] at h3; simp at h3
      have hvr : v.contains '\r' = false := by
        cases hcr : v.contains '\r'
        · rfl
        · rw [hcr] at h3; simp at h3
      refine ⟨⟨f, v, hyv⟩, ?_, ?_⟩
      · intro hmem
        rw [hyv] at hmem
        rcases List.mem_append.mp hmem with hm1 | hm2
        · revert hm1; cases f <;> decide
        · have h4 : v.contains '\n' = true := List.elem_eq_true_of_mem hm2
          rw [hvn] at h4
          cases h4
      · intro hmem
        rw [hyv] at hmem
        rcases List.mem_append.mp hmem with hm1 | hm2
        · revert hm1; cases f <;> decide
        · have h4 : v.contains '\r' = true := List.elem_eq_true_of_mem hm2
          rw [hvr] at h4
          cases h4
    obtain ⟨⟨f, v, hxv⟩, -, -⟩ := hpair x (List.mem_cons_self x rest)
    obtain ⟨T, hT⟩ := joinSep_cons_front (str " / ") x rest
    have hR : qa_to_text qa = (field_label f ++ str ": ") ++ (v ++ T) := by
      simp only [qa_to_text]
      rw [hq, hT, hxv, List.append_assoc]
    have hRn : '\n' ∉ qa_to_text qa := by
      intro hm
      simp only [qa_to_text] at hm
      rw [hq] at hm
      rcases mem_joinSep (str " / ") (x :: rest) hm with hsep | ⟨z, hz, hzc⟩
      · exact absurd hsep (by decide)
      · exact (hpair z hz).2.1 hzc
    have hRr : '\r' ∉ qa_to_text qa := by
      intro hm
      simp only [qa_to_text] at hm
      rw [hq] at hm
      rcases mem_joinSep (str " / ") (x :: rest) hm with hsep | ⟨z, hz, hzc⟩
      · exact absurd hsep (by decide)
      · exact (hpair z hz).2.2 hzc
    simp only [read_qa_csv_text]
    rw [splitLinesPy_no_term (qa_to_text qa) hRr hRn,
        List.map_cons, List.map_nil, hR]
    obtain ⟨T5, hT5⟩ := @rdropB_keepFront (fun c => c = '\r' || c = '\n')
      (field_label f ++ str ": ")
      ⟨' ', field_label f ++ [':'], by rw [List.append_assoc]; rfl, by decide⟩ (v ++ T)
    rw [hT5]
    have hcolon : ':' ∈ (field_label f ++ str ": ") ++ T5 :=
      List.mem_append_left T5 (List.mem_append_right (field_label f) (by decide))
    have hkeep : (!(pyStrip ((field_label f ++ str ": ") ++ T5)).isEmpty) = true := by
      rw [pyStrip_not_empty (by decide) hcolon]
      rfl
    have hfil : List.filter (fun l => !(pyStrip l).isEmpty)
        [(field_label f ++ str ": ") ++ T5] = [(field_label f ++ str ": ") ++ T5] := by
      simp only [List.filter_cons, List.filter_nil]
      rw [if_pos hkeep]
    rw [hfil]
    have hplines : parse_lines [(field_label f ++ str ": ") ++ T5] = emptyQA := by
      apply parse_lines_single_colon
      refine ⟨field_label f, ' ' :: T5, ?_, ?_⟩
      · rw [List.append_assoc]; rfl
      · cases f <;> decide
    rw [hplines]
    rfl

theorem claim_C4_witness :
    (∀ f ∈ [Field.site, Field.crop, Field.operation, Field.pesticide,
            Field.fertiliser, Field.memo],
      ((({ memo := some (str "물 중단") } : QAFieldMap)).get f).all
        (fun v => !(v.contains '\n' || v.contains '\r')) = true) ∧
    read_qa_csv_text (qa_to_text ({ memo := some (str "물 중단") } : QAFieldMap)) =
      emptyQA :=
  ⟨by decide, claim_C4 _ (by decide)⟩

end FarmLog
